import Mathlib

/-!
Shallow embedding of the MCML-style Monte Carlo photon transport program
`scattering_pulse_oximetry.py` (single-module Python source).

Python floats are modelled as exact reals (`ℝ`).  Randomness is made
explicit: each operation that calls `np.random.random()` /
`np.random.random_sample()` either takes the drawn uniform value as an
argument or consumes the head of an explicit draw stream (`List ℝ`),
returning the remaining stream.  NumPy arrays are modelled as total
functions from (integer) indices to `ℝ`; the program only ever reads or
writes in-range indices, and index expressions are kept as integers so
that the clamping performed by the source is visible.  Python's
`int(...)` conversion (truncation toward zero) is `rtrunc` below.  A
Python function whose `return` can raise `UnboundLocalError` is modelled
with an `Option` result (`none` = the error).
-/

namespace MCML

open scoped BigOperators

/-- Threshold weight, module constant `WEIGHT = 1e-4` (line 6). -/
noncomputable def WEIGHT : ℝ := 1 / 10000

/-- Chance of survival for roulette, module constant `M = 0.1` (line 7). -/
noncomputable def M : ℝ := 1 / 10

/-- Limit for nearly normal incidence, `COSZERO = 1.0 - 1.0e-12` (line 8). -/
noncomputable def COSZERO : ℝ := 1 - 1 / 1000000000000

/-- Limit for nearly parallel incidence, `COS90 = 1.0e-6` (line 10). -/
noncomputable def COS90 : ℝ := 1 / 1000000

/-- Module flag `PARTIAL_REFLECTION = 0` (line 11): zero for OFF, one for ON. -/
def prFlag : ℕ := 0

/-- Optical description of one layer.  The fields `name, n, g, z, mua, mus`
are common to the `medium`, `skin`, `Fat` and `Muscle` classes; the
`nBone, gBone, muaBone, musBone` fields exist only on `Muscle` objects
(lines 115-128) and are only ever read when `name` is `"muscle"`. -/
structure Layer where
  name : String
  n : ℝ
  g : ℝ
  z : ℝ
  mua : ℝ
  mus : ℝ
  nBone : ℝ
  gBone : ℝ
  muaBone : ℝ
  musBone : ℝ

/-- Default used for out-of-range list reads (the Python program never
performs such reads on the paths modelled here). -/
def defaultLayer : Layer :=
  { name := "", n := 0, g := 0, z := 0, mua := 0, mus := 0,
    nBone := 0, gBone := 0, muaBone := 0, musBone := 0 }

/-- State of the `model` class (lines 131-417): the layer structure with its
precomputed tables, the grid geometry, and the accumulation arrays. -/
structure MCModel where
  layers : List Layer
  numberOfLayers : ℕ
  layerDepth : List (ℝ × ℝ)
  W_th : ℝ
  cosCrit : List (ℝ × ℝ)
  nx : ℕ
  ny : ℕ
  nz : ℕ
  nr : ℕ
  na : ℕ
  dx : ℝ
  dy : ℝ
  dz : ℝ
  dr : ℝ
  da : ℝ
  numberOfPhotons : ℕ
  Rsp : ℝ
  Rd : ℝ
  A : ℝ
  Tt : ℝ
  Rd_ra : ℤ → ℤ → ℝ
  Rd_r : ℕ → ℝ
  Rd_a : ℕ → ℝ
  A_rz : ℤ → ℤ → ℝ
  A_z : ℕ → ℝ
  A_l : ℕ → ℝ
  Phi_rz : ℤ → ℤ → ℝ
  Phi_z : ℕ → ℝ
  Tt_ra : ℤ → ℤ → ℝ
  Tt_r : ℕ → ℝ
  Tt_a : ℕ → ℝ

/-- Indexing `model.layers[i]` (in-range on all modelled paths). -/
def MCModel.layerAt (m : MCModel) (i : ℕ) : Layer :=
  m.layers.getD i defaultLayer

/-- Indexing `model.layerDepth[i]` (in-range on all modelled paths). -/
def MCModel.depthAt (m : MCModel) (i : ℕ) : ℝ × ℝ :=
  m.layerDepth.getD i ((0 : ℝ), (0 : ℝ))

/-- Indexing `model.cosCrit[i]` (in-range on all modelled paths). -/
def MCModel.critAt (m : MCModel) (i : ℕ) : ℝ × ℝ :=
  m.cosCrit.getD i ((0 : ℝ), (0 : ℝ))

/-- State of the `Photon` class (lines 419-455). -/
structure Photon where
  x : ℝ
  y : ℝ
  z : ℝ
  ux : ℝ
  uy : ℝ
  uz : ℝ
  w : ℝ
  dead : Bool
  layer : ℕ
  s : ℝ
  s_rem : ℝ

/-- Python `int(r)` on a float: truncation toward zero. -/
noncomputable def rtrunc (r : ℝ) : ℤ :=
  if 0 ≤ r then ⌊r⌋ else ⌈r⌉

/-- Clamping pattern `if i > n - 1: i = n - 1` used for all grid indices. -/
def binClamp (i : ℤ) (n : ℕ) : ℤ :=
  if i > (n : ℤ) - 1 then (n : ℤ) - 1 else i

/-- `Photon.calcFresnel` (lines 603-640): Fresnel reflectance and
transmitted cosine for refractive indices `n1 → n2` at incidence cosine
`cosInc`. -/
noncomputable def calcFresnel (n1 n2 cosInc : ℝ) : ℝ × ℝ :=
  if n1 = n2 then
    (0, cosInc)
  else if |cosInc| > COSZERO then
    (((n2 - n1) / (n2 + n1)) ^ 2, cosInc)
  else if |cosInc| < COS90 then
    (1, 0)
  else
    let sinInc := Real.sqrt (1 - |cosInc| ^ 2)
    let sinTran := (n1 / n2) * sinInc
    if sinTran ≥ 1 then
      (1, 0)
    else
      let cosTran := Real.sqrt (1 - sinTran ^ 2)
      let cosPlus := cosInc * cosTran - sinInc * sinTran
      let cosMinus := cosInc * cosTran + sinInc * sinTran
      let sinPlus := sinInc * cosTran + cosInc * sinTran
      let sinMinus := sinInc * cosTran - cosInc * sinTran
      (0.5 * (sinMinus ^ 2) * (cosMinus ^ 2 + cosPlus ^ 2) /
        (sinPlus ^ 2 * cosMinus ^ 2), cosTran)

/-- Radial bin index `ir` used by `recordReduce` (lines 655-657). -/
noncomputable def rrIr (m : MCModel) (p : Photon) : ℤ :=
  binClamp (rtrunc (Real.sqrt (p.x ^ 2 + p.y ^ 2) / m.dr)) m.nr

/-- Angular bin index `ia` used by `recordReduce` (lines 658-660). -/
noncomputable def rrIa (m : MCModel) (p : Photon) : ℤ :=
  binClamp (rtrunc (Real.arccos |p.uz| / m.da)) m.na

/-- `Photon.recordReduce` (lines 642-674): deposit the exiting fraction
`w * (1 - reflectance)` of the photon weight into `Rd_ra` (when the photon
is in layer 1, i.e. reflection) or `Tt_ra` (otherwise, i.e. transmission),
then multiply the photon weight by `reflectance`. -/
noncomputable def recordReduce (m : MCModel) (p : Photon) (reflectance : ℝ) :
    MCModel × Photon :=
  let ir := rrIr m p
  let ia := rrIa m p
  if p.layer = 1 then
    ({ m with Rd_ra := fun i j =>
        if i = ir ∧ j = ia then m.Rd_ra i j + p.w * (1 - reflectance)
        else m.Rd_ra i j },
     { p with w := p.w * reflectance })
  else
    ({ m with Tt_ra := fun i j =>
        if i = ir ∧ j = ia then m.Tt_ra i j + p.w * (1 - reflectance)
        else m.Tt_ra i j },
     { p with w := p.w * reflectance })

/-- `Photon.hop` (lines 794-799): move the photon by `s` along its
direction. -/
def hop (p : Photon) : Photon :=
  { p with x := p.x + p.s * p.ux, y := p.y + p.s * p.uy,
           z := p.z + p.s * p.uz }

/-- `Photon.inBone` (lines 771-791): Fresnel test against the bone
refractive index; consumes one uniform draw `u`.  On transmission the
transverse cosines are rescaled and `uz` is replaced by the (signed)
transmitted cosine; on reflection `uz` is flipped.  Returns the mutated
photon and the `inside` flag. -/
noncomputable def inBone (m : MCModel) (p : Photon) (u : ℝ) : Photon × Bool :=
  let n_i := (m.layerAt p.layer).n
  let n_t := (m.layerAt p.layer).nBone
  let rz := calcFresnel n_i n_t |p.uz|
  if u > rz.1 then
    ({ p with ux := p.ux * (n_i / n_t), uy := p.uy * (n_i / n_t),
              uz := if p.uz > 0 then rz.2 else -rz.2 }, true)
  else
    ({ p with uz := -p.uz }, false)

/-- Depth bin index `iz` used by `drop` (lines 815-817). -/
noncomputable def dropIz (m : MCModel) (p : Photon) : ℤ :=
  binClamp (rtrunc (p.z / m.dz)) m.nz

/-- Radial bin index `ir` used by `drop` (lines 818-820). -/
noncomputable def dropIr (m : MCModel) (p : Photon) : ℤ :=
  binClamp (rtrunc (Real.sqrt (p.x ^ 2 + p.y ^ 2) / m.dr)) m.nr

/-- Weight-deposit part of `Photon.drop` (lines 813-825), with the
absorption and scattering coefficients already selected: subtract
`dw = w * mua / mu_t` from the photon weight and add it to `A_rz` at the
clamped bin `(ir, iz)`. -/
noncomputable def dropCore (m : MCModel) (p : Photon) (mua mus : ℝ) :
    MCModel × Photon :=
  let mu_t := mua + mus
  let dw := p.w * mua / mu_t
  ({ m with A_rz := fun i j =>
      if i = dropIr m p ∧ j = dropIz m p then m.A_rz i j + dw
      else m.A_rz i j },
   { p with w := p.w - dw })

/-- Python's `str.lower()` (used by the name comparison on line 806),
modelled over the character list so that it evaluates by kernel
reduction. -/
def lowerStr (s : String) : String := ⟨s.data.map Char.toLower⟩

/-- `Photon.drop` (lines 801-825).  When the current layer is named
`"muscle"` (case-insensitive comparison, line 806) the source evaluates
`self.inBone(model)` — which consumes a draw and mutates the direction —
and uses the bone coefficients when the photon enters the bone; otherwise
the layer's own coefficients are used. -/
noncomputable def drop (m : MCModel) (p : Photon) (u : ℝ) : MCModel × Photon :=
  let lay := m.layerAt p.layer
  if lowerStr lay.name = lowerStr "muscle" then
    let pb := inBone m p u
    if pb.2 then dropCore m pb.1 lay.muaBone lay.musBone
    else dropCore m pb.1 lay.mua lay.mus
  else
    dropCore m p lay.mua lay.mus

/-- `np.sign` on a real number. -/
noncomputable def realSign (r : ℝ) : ℝ :=
  if r > 0 then 1 else if r < 0 then -1 else 0

/-- Deflection-cosine sampling of `Photon.spin` (lines 841-852): uniform
for `g = 0`, otherwise the Henyey-Greenstein inverse CDF clamped to
`[-1, 1]`; `u` is the uniform draw. -/
noncomputable def sampleCosTheta (g u : ℝ) : ℝ :=
  if g = 0 then 2 * u - 1
  else
    let brack := (1 - g ^ 2) / (1 - g + 2 * g * u)
    let ct := (1 + g ^ 2 - brack ^ 2) / (2 * g)
    if ct < -1 then -1 else if ct > 1 then 1 else ct

/-- Direction update of `Photon.spin` (lines 853-874) for a given
deflection cosine `cosTheta` and azimuth `psi`: `sinTheta`, `cosPsi`,
`sinPsi` are derived exactly as in the source, then the direction cosines
are rotated, with a separate branch for nearly normal incidence. -/
noncomputable def spinWith (p : Photon) (cosTheta psi : ℝ) : Photon :=
  let sinTheta := Real.sqrt (1 - cosTheta ^ 2)
  let cosPsi := Real.cos psi
  let sinPsi := if psi < Real.pi then Real.sqrt (1 - cosPsi ^ 2)
                else -Real.sqrt (1 - cosPsi ^ 2)
  if |p.uz| > COSZERO then
    { p with ux := sinTheta * cosPsi, uy := sinTheta * sinPsi,
             uz := cosTheta * realSign p.uz }
  else
    { p with
      ux := sinTheta * (p.ux * p.uz * cosPsi - p.uy * sinPsi) /
              Real.sqrt (1 - p.uz ^ 2) + p.ux * cosTheta,
      uy := sinTheta * (p.uy * p.uz * cosPsi + p.ux * sinPsi) /
              Real.sqrt (1 - p.uz ^ 2) + p.uy * cosTheta,
      uz := -sinTheta * cosPsi * Real.sqrt (1 - p.uz ^ 2) + p.uz * cosTheta }

/-- `Photon.spin` (lines 827-874): sample the deflection cosine from the
draw `u1`, the azimuth `psi = 2 π u2` from the draw `u2`, and rotate. -/
noncomputable def spin (p : Photon) (g u1 u2 : ℝ) : Photon :=
  spinWith p (sampleCosTheta g u1) (2 * Real.pi * u2)

/-- `Photon.roulette` (lines 470-480): a photon with zero weight dies; an
under-threshold photon survives with probability `M` (draw `u < M`) and is
rescaled to `w / M`, otherwise it dies with its weight untouched. -/
noncomputable def roulette (p : Photon) (u : ℝ) : Photon :=
  if p.w = 0 then { p with dead := true }
  else if u < M then { p with w := p.w / M }
  else { p with dead := true }

/-- `Photon.stepSizeTissue` (lines 706-717): draw a fresh step
`s = -ln u / mut` when no residual step is stored, otherwise convert the
stored residual optical path back to a geometric step with the current
layer's `mut` and clear it (no draw is consumed in that case). -/
noncomputable def stepSizeTissue (m : MCModel) (p : Photon)
    (stream : List ℝ) : Photon × List ℝ :=
  let mu_t := (m.layerAt p.layer).mua + (m.layerAt p.layer).mus
  if p.s_rem = 0 then
    ({ p with s := -Real.log (stream.headD 0) / mu_t }, stream.tail)
  else
    ({ p with s := p.s_rem / mu_t, s_rem := 0 }, stream)

/-- Distance to the layer face ahead of the photon, as computed in
`stepSizeGlass` (lines 501-504) and `boundaryHit` (lines 730-733):
the bottom depth for a downward photon, the top depth for an upward one. -/
noncomputable def faceDistance (m : MCModel) (p : Photon) : ℝ :=
  if p.uz > 0 then ((m.depthAt p.layer).2 - p.z) / p.uz
  else ((m.depthAt p.layer).1 - p.z) / p.uz

/-- `Photon.stepSizeGlass` (lines 495-505): in a clear layer the photon
moves uninterrupted, so the step is the full distance to the boundary. -/
noncomputable def stepSizeGlass (m : MCModel) (p : Photon) : Photon :=
  { p with s := faceDistance m p }

/-- `Photon.boundaryHit` (lines 719-740).  When `uz = 0` no branch of the
source assigns the local variable `hit`, so `return hit` raises
`UnboundLocalError`; this is the `none` result.  Otherwise, if the stored
step overshoots the face, the step is truncated to the face distance and
the overshoot is stored in optical-path units `(s - d_b) * mut`. -/
noncomputable def boundaryHit (m : MCModel) (p : Photon) :
    Option (Bool × Photon) :=
  let mu_t := (m.layerAt p.layer).mua + (m.layerAt p.layer).mus
  if p.uz ≠ 0 then
    let d_b := faceDistance m p
    if p.s > d_b then
      some (true, { p with s_rem := (p.s - d_b) * mu_t, s := d_b })
    else
      some (false, p)
  else
    none

/-- `Photon.newLayerCheck` (lines 507-601): boundary resolution.  The
photon is moving up when `uz < 0` and down otherwise.  Total internal
reflection is forced when `|uz|` is at most the precomputed critical
cosine for the face; the placeholder transmitted cosine `0` stands for
the local variable `uzNew`, which the source leaves unassigned in that
case and never reads (the transmit branches require a draw `u > r` with
`r = 1`, impossible for a uniform draw).  Note that
`np.random.random() > r` is evaluated — one draw is consumed — on every
pass through the non-partial arm, including forced reflection.  The
`prFlag = 1` arm (partial reflection) is translated for completeness but
is dead code under the module constant. -/
noncomputable def newLayerCheck (m : MCModel) (p : Photon)
    (stream : List ℝ) : MCModel × Photon × List ℝ :=
  if p.uz < 0 then
    -- photon moving up (lines 515-561)
    let n_i := (m.layerAt p.layer).n
    let n_t := (m.layerAt (p.layer - 1)).n
    let ruz := if |p.uz| ≤ (m.critAt p.layer).1 then ((1 : ℝ), (0 : ℝ))
               else calcFresnel n_i n_t |p.uz|
    if prFlag = 1 then
      if p.layer = 1 ∧ ruz.1 < 1 then
        let mp := recordReduce m { p with uz := -ruz.2 } ruz.1
        (mp.1, { mp.2 with uz := -p.uz }, stream)
      else if stream.headD 0 > ruz.1 then
        (m, { p with layer := p.layer - 1, ux := p.ux * (n_i / n_t),
                     uy := p.uy * (n_i / n_t), uz := -ruz.2 }, stream.tail)
      else
        (m, { p with uz := -p.uz }, stream.tail)
    else
      if stream.headD 0 > ruz.1 then
        if p.layer = 1 then
          let mp := recordReduce m { p with uz := -ruz.2 } 0
          (mp.1, { mp.2 with dead := true }, stream.tail)
        else
          (m, { p with layer := p.layer - 1, ux := p.ux * (n_i / n_t),
                       uy := p.uy * (n_i / n_t), uz := -ruz.2 }, stream.tail)
      else
        (m, { p with uz := -p.uz }, stream.tail)
  else
    -- photon moving down (lines 563-601)
    let n_i := (m.layerAt p.layer).n
    let n_t := (m.layerAt (p.layer + 1)).n
    let ruz := if |p.uz| ≤ (m.critAt p.layer).2 then ((1 : ℝ), (0 : ℝ))
               else calcFresnel n_i n_t p.uz
    if prFlag = 1 then
      if p.layer = m.numberOfLayers ∧ ruz.1 < 1 then
        let mp := recordReduce m { p with uz := ruz.2 } ruz.1
        (mp.1, { mp.2 with uz := -p.uz }, stream)
      else if stream.headD 0 > ruz.1 then
        (m, { p with layer := p.layer + 1, ux := p.ux * (n_i / n_t),
                     uy := p.uy * (n_i / n_t), uz := ruz.2 }, stream.tail)
      else
        (m, { p with uz := -p.uz }, stream.tail)
    else
      if stream.headD 0 > ruz.1 then
        if p.layer = m.numberOfLayers then
          let mp := recordReduce m { p with uz := ruz.2 } 0
          (mp.1, { mp.2 with dead := true }, stream.tail)
        else
          (m, { p with layer := p.layer + 1, ux := p.ux * (n_i / n_t),
                       uy := p.uy * (n_i / n_t), uz := ruz.2 }, stream.tail)
      else
        (m, { p with uz := -p.uz }, stream.tail)

/-- Direction change applied by the interior-transmission branches of
`newLayerCheck` (lines 596-599): rescale the transverse cosines by
`n_i / n_t` and replace `uz` by the transmitted cosine returned by
`calcFresnel` (the upward branch uses its negation, which has the same
square). -/
noncomputable def transmitUpdate (p : Photon) (n_i n_t cosInc : ℝ) : Photon :=
  { p with ux := p.ux * (n_i / n_t), uy := p.uy * (n_i / n_t),
           uz := (calcFresnel n_i n_t cosInc).2 }

/-- `Photon.hopDropSpinGlass` (lines 482-493): a horizontal photon in a
clear layer is killed outright; otherwise it steps straight to the layer
face and resolves the boundary. -/
noncomputable def hopDropSpinGlass (m : MCModel) (p : Photon)
    (stream : List ℝ) : MCModel × Photon × List ℝ :=
  if p.uz = 0 then (m, { p with dead := true }, stream)
  else newLayerCheck m (hop (stepSizeGlass m p)) stream

/-- Ring-area factor `dArea = 2 π (ir + 0.5) dr²` (lines 360, 366, 377,
402). -/
noncomputable def dArea (m : MCModel) (ir : ℤ) : ℝ :=
  2 * Real.pi * ((ir : ℝ) + 0.5) * m.dr ^ 2

/-- Solid-angle factor `dSolidAngle = 4 π sin((ia+0.5) da) sin(0.5 da)`
(lines 359, 367-368, 385-387). -/
noncomputable def dSolidAngle (m : MCModel) (ia : ℤ) : ℝ :=
  4 * Real.pi * Real.sin (((ia : ℝ) + 0.5) * m.da) * Real.sin (0.5 * m.da)

/-- Per-cell normalization factor for the 2D reflectance/transmittance
grids (lines 369-370): `dArea · cos((ia+0.5) da) · dSolidAngle · N`. -/
noncomputable def scaleRdTt (m : MCModel) (ir ia : ℤ) : ℝ :=
  dArea m ir * Real.cos (((ia : ℝ) + 0.5) * m.da) * dSolidAngle m ia *
    (m.numberOfPhotons : ℝ)

/-- Per-cell normalization factor for `A_rz` (lines 402-403):
`dArea · dz · N`. -/
noncomputable def scaleArz (m : MCModel) (ir : ℤ) : ℝ :=
  dArea m ir * m.dz * (m.numberOfPhotons : ℝ)

/-- `model.sumRT` (lines 276-306): 1D radial and angular projections of
the 2D grids by summation, then the scalar totals from the new radial
arrays. -/
noncomputable def sumRT (m : MCModel) : MCModel :=
  let rdR : ℕ → ℝ := fun ir =>
    if ir < m.nr then ∑ ia ∈ Finset.range m.na, m.Rd_ra ir ia else m.Rd_r ir
  let ttR : ℕ → ℝ := fun ir =>
    if ir < m.nr then ∑ ia ∈ Finset.range m.na, m.Tt_ra ir ia else m.Tt_r ir
  let rdA : ℕ → ℝ := fun ia =>
    if ia < m.na then ∑ ir ∈ Finset.range m.nr, m.Rd_ra ir ia else m.Rd_a ia
  let ttA : ℕ → ℝ := fun ia =>
    if ia < m.na then ∑ ir ∈ Finset.range m.nr, m.Tt_ra ir ia else m.Tt_a ia
  { m with Rd_r := rdR, Tt_r := ttR, Rd_a := rdA, Tt_a := ttA,
           Rd := ∑ ir ∈ Finset.range m.nr, rdR ir,
           Tt := ∑ ir ∈ Finset.range m.nr, ttR ir }

/-- `model.scaleRT` (lines 356-396): divide each 2D cell, each 1D entry
and the scalars by their geometric factors and the photon count. -/
noncomputable def scaleRT (m : MCModel) : MCModel :=
  { m with
    Rd_ra := fun i j =>
      if 0 ≤ i ∧ i < (m.nr : ℤ) ∧ 0 ≤ j ∧ j < (m.na : ℤ) then
        m.Rd_ra i j / scaleRdTt m i j else m.Rd_ra i j,
    Tt_ra := fun i j =>
      if 0 ≤ i ∧ i < (m.nr : ℤ) ∧ 0 ≤ j ∧ j < (m.na : ℤ) then
        m.Tt_ra i j / scaleRdTt m i j else m.Tt_ra i j,
    Rd_r := fun ir =>
      if ir < m.nr then m.Rd_r ir / (dArea m ir * (m.numberOfPhotons : ℝ))
      else m.Rd_r ir,
    Tt_r := fun ir =>
      if ir < m.nr then m.Tt_r ir / (dArea m ir * (m.numberOfPhotons : ℝ))
      else m.Tt_r ir,
    Rd_a := fun ia =>
      if ia < m.na then
        m.Rd_a ia / (dSolidAngle m ia * (m.numberOfPhotons : ℝ))
      else m.Rd_a ia,
    Tt_a := fun ia =>
      if ia < m.na then
        m.Tt_a ia / (dSolidAngle m ia * (m.numberOfPhotons : ℝ))
      else m.Tt_a ia,
    Rd := m.Rd / (m.numberOfPhotons : ℝ),
    Tt := m.Tt / (m.numberOfPhotons : ℝ) }

/-- While-loop of `model.indexLayer` (lines 326-334) and `model.muaIz`
(lines 345-354): starting from layer index `i`, advance while the depth
coordinate `x` is at or below the layer's bottom and more layers remain.
The loop body runs at most `numberOfLayers` times, which bounds the fuel. -/
noncomputable def layerIdxAux (m : MCModel) (x : ℝ) : ℕ → ℕ → ℕ
  | 0, i => i
  | k + 1, i =>
      if x ≥ (m.depthAt i).2 ∧ i < m.numberOfLayers then
        layerIdxAux m x k (i + 1)
      else i

/-- `model.indexLayer` (lines 326-334): layer owning depth bin `iz`. -/
noncomputable def indexLayer (m : MCModel) (iz : ℕ) : ℕ :=
  layerIdxAux m (((iz : ℝ) + 0.5) * m.dz) m.numberOfLayers 1

/-- `model.muaIz` (lines 345-354): absorption coefficient at depth bin
`iz`. -/
noncomputable def muaIz (m : MCModel) (iz : ℕ) : ℝ :=
  (m.layerAt (layerIdxAux m (((iz : ℝ) + 0.5) * m.dz) m.numberOfLayers 1)).mua

/-- `model.sumA` (lines 308-324): depth projection of `A_rz`, per-layer
accumulation into `A_l` (note: `A_l` is *added to*, not reset), and the
scalar total. -/
noncomputable def sumA (m : MCModel) : MCModel :=
  let az : ℕ → ℝ := fun iz =>
    if iz < m.nz then ∑ ir ∈ Finset.range m.nr, m.A_rz ir iz else m.A_z iz
  { m with A_z := az,
           A_l := fun il => m.A_l il +
             ∑ iz ∈ (Finset.range m.nz).filter (fun iz => indexLayer m iz = il),
               az iz,
           A := ∑ iz ∈ Finset.range m.nz, az iz }

/-- `model.scaleA` (lines 398-417): divide `A_rz`, `A_z`, `A_l` and `A`
by their factors and the photon count. -/
noncomputable def scaleA (m : MCModel) : MCModel :=
  { m with
    A_rz := fun i j =>
      if 0 ≤ i ∧ i < (m.nr : ℤ) ∧ 0 ≤ j ∧ j < (m.nz : ℤ) then
        m.A_rz i j / scaleArz m i else m.A_rz i j,
    A_z := fun iz =>
      if iz < m.nz then m.A_z iz / (m.dz * (m.numberOfPhotons : ℝ))
      else m.A_z iz,
    A_l := fun il =>
      if il < m.numberOfLayers + 2 then m.A_l il / (m.numberOfPhotons : ℝ)
      else m.A_l il,
    A := m.A / (m.numberOfPhotons : ℝ) }

/-- `model.Fluence` (lines 336-343): fluence arrays from the (scaled)
absorption arrays and the local absorption coefficient. -/
noncomputable def Fluence (m : MCModel) : MCModel :=
  { m with
    Phi_rz := fun i j =>
      if 0 ≤ i ∧ i < (m.nr : ℤ) ∧ 0 ≤ j ∧ j < (m.nz : ℤ) then
        m.A_rz i j / muaIz m j.toNat else m.Phi_rz i j,
    Phi_z := fun iz =>
      if iz < m.nz then m.A_z iz / muaIz m iz else m.Phi_z iz }

/-- `model.computeAndScaleArraySums` (lines 263-273): sum then scale the
reflectance/transmittance arrays, sum then scale the absorption arrays,
then derive fluence. -/
noncomputable def computeAndScaleArraySums (m : MCModel) : MCModel :=
  Fluence (scaleA (sumA (scaleRT (sumRT m))))

/-- Depth-interval construction of `model.__init__` (lines 172-181):
entry `i` of `layerDepth` is the (top, bottom) pair of layer `i`, with
the running depth `z` advanced by each thickness. -/
noncomputable def depthsFrom (L : List Layer) : ℕ → ℕ → ℝ → List (ℝ × ℝ)
  | _, 0, _ => []
  | i, k + 1, z =>
      let zb := z + (L.getD i defaultLayer).z
      (z, zb) :: depthsFrom L (i + 1) k zb

/-- Critical-angle cosines of layer `i` (lines 185-206): at each face,
`sqrt (1 - n_t² / n_i²)` when `n_i ≥ n_t`, else `0`. -/
noncomputable def critPair (L : List Layer) (i : ℕ) : ℝ × ℝ :=
  let n_i := (L.getD i defaultLayer).n
  ((if n_i ≥ (L.getD (i - 1) defaultLayer).n then
      Real.sqrt (1 - (L.getD (i - 1) defaultLayer).n ^ 2 / n_i ^ 2) else 0),
   (if n_i ≥ (L.getD (i + 1) defaultLayer).n then
      Real.sqrt (1 - (L.getD (i + 1) defaultLayer).n ^ 2 / n_i ^ 2) else 0))

/-- Critical-angle table rows for layers `i, i+1, ...` (`k` rows). -/
noncomputable def critFrom (L : List Layer) : ℕ → ℕ → List (ℝ × ℝ)
  | _, 0 => []
  | i, k + 1 => critPair L i :: critFrom L (i + 1) k

/-- `model.calcSpecular` (lines 249-258): specular reflectance at the top
interface, composing two interfaces when the first tissue layer is clear. -/
noncomputable def calcSpecular (L : List Layer) : ℝ :=
  let r1 := (((L.getD 0 defaultLayer).n - (L.getD 1 defaultLayer).n) /
             ((L.getD 0 defaultLayer).n + (L.getD 1 defaultLayer).n)) ^ 2
  if (L.getD 1 defaultLayer).mua = 0 ∧ (L.getD 1 defaultLayer).mus = 0 then
    let r2 := (((L.getD 1 defaultLayer).n - (L.getD 2 defaultLayer).n) /
               ((L.getD 1 defaultLayer).n + (L.getD 2 defaultLayer).n)) ^ 2
    r1 + ((1 - r1) ^ 2 * r2) / (1 - r1 * r2)
  else r1

/-- `model.__init__` (lines 168-239): the layer tables, the hard-coded
grid geometry (`dz = dr = 2e-2`, `da = 0.5 π / 30`), the specular
reflectance, and zero-initialized accumulation arrays. -/
noncomputable def mkModel (mediumStructure : List Layer)
    (numberOfLayers : ℕ) : MCModel :=
  { layers := mediumStructure,
    numberOfLayers := numberOfLayers,
    layerDepth := ((0 : ℝ), (0 : ℝ)) ::
      depthsFrom mediumStructure 1 numberOfLayers 0,
    W_th := WEIGHT,
    cosCrit := ((0 : ℝ), (0 : ℝ)) :: critFrom mediumStructure 1 numberOfLayers,
    nx := 650, ny := 650, nz := 650, nr := 250, na := 30,
    dx := 1 / 50, dy := 1 / 50, dz := 1 / 50, dr := 1 / 50,
    da := 0.5 * Real.pi / 30,
    numberOfPhotons := 0,
    Rsp := calcSpecular mediumStructure,
    Rd := 0, A := 0, Tt := 0,
    Rd_ra := fun _ _ => 0, Rd_r := fun _ => 0, Rd_a := fun _ => 0,
    A_rz := fun _ _ => 0, A_z := fun _ => 0, A_l := fun _ => 0,
    Phi_rz := fun _ _ => 0, Phi_z := fun _ => 0,
    Tt_ra := fun _ _ => 0, Tt_r := fun _ => 0, Tt_a := fun _ => 0 }

/-- `Photon.__init__` (lines 437-455): the glass-skip branch sets
`layer = 2` and moves `z` to the top of layer 2, but line 453 then
unconditionally assigns `layer = 1`, so only the `z` change survives. -/
noncomputable def mkPhoton (m : MCModel) : Photon :=
  { x := 0, y := 0,
    z := if (m.layerAt 1).mua = 0 ∧ (m.layerAt 1).mus = 0 then
           (m.depthAt 2).1 else 0,
    ux := 0, uy := 0, uz := 1,
    w := 1 - m.Rsp,
    dead := false,
    layer := 1,
    s := 0, s_rem := 0 }

/-! ### Definitions supporting the stated properties -/

/-- Unit-norm predicate for the direction cosines. -/
def unitDir (p : Photon) : Prop := p.ux ^ 2 + p.uy ^ 2 + p.uz ^ 2 = 1

/-- Total weight so far deposited in the absorption grid (over its full
index range `nr × nz`). -/
noncomputable def totalArz (m : MCModel) : ℝ :=
  ∑ q ∈ Finset.range m.nr ×ˢ Finset.range m.nz, m.A_rz q.1 q.2

/-- Total weight so far deposited in the diffuse-reflectance exit grid. -/
noncomputable def totalRdra (m : MCModel) : ℝ :=
  ∑ q ∈ Finset.range m.nr ×ˢ Finset.range m.na, m.Rd_ra q.1 q.2

/-- Total weight so far deposited in the transmittance exit grid. -/
noncomputable def totalTtra (m : MCModel) : ℝ :=
  ∑ q ∈ Finset.range m.nr ×ˢ Finset.range m.na, m.Tt_ra q.1 q.2

/-- Packet weight plus everything the walk has deposited in the three
accumulation grids: the conserved quantity of a photon walk. -/
noncomputable def budget (m : MCModel) (p : Photon) : ℝ :=
  p.w + totalArz m + totalRdra m + totalTtra m

/-- Weight still carried by a live packet (`0` for a dead one); its mean
over the roulette draw is the roulette expectation. -/
noncomputable def aliveWeight (p : Photon) : ℝ :=
  if p.dead then 0 else p.w

/-! ### Example stacks used to instantiate the properties -/

/-- Ambient air bounding layer. -/
noncomputable def exAir : Layer :=
  { name := "air", n := 1, g := 0, z := 0, mua := 0, mus := 0,
    nBone := 0, gBone := 0, muaBone := 0, musBone := 0 }

/-- Clear (glass-like) layer: `mua = mus = 0`. -/
noncomputable def exGlass : Layer :=
  { name := "glass", n := 3 / 2, g := 0, z := 1 / 10, mua := 0, mus := 0,
    nBone := 0, gBone := 0, muaBone := 0, musBone := 0 }

/-- Simple scattering/absorbing tissue layer, index-matched to air. -/
noncomputable def exTissue : Layer :=
  { name := "dermis", n := 1, g := 0, z := 1, mua := 1, mus := 1,
    nBone := 0, gBone := 0, muaBone := 0, musBone := 0 }

/-- Muscle layer carrying the bone optical constants. -/
noncomputable def exMuscle : Layer :=
  { name := "muscle", n := 1, g := 0, z := 1, mua := 1, mus := 1,
    nBone := 2, gBone := 0, muaBone := 1, musBone := 1 }

/-- High-index tissue layer (for forced total internal reflection). -/
noncomputable def exDense : Layer :=
  { name := "dense", n := 2, g := 0, z := 1, mua := 1, mus := 1,
    nBone := 0, gBone := 0, muaBone := 0, musBone := 0 }

/-! ### Claim C2: Fresnel edge cases -/

/-- Claim C2 (amended): `calcFresnel` is pure and (i) returns `(0, cosInc)`
for equal indices; (ii) returns the normal-incidence reflectance
`((n2-n1)/(n2+n1))²` with unchanged cosine when `|cosInc| > COSZERO`;
(iii) for distinct indices returns `(1, 0)` when `|cosInc| < COS90`;
(iv) in the general case (no earlier branch applies) returns `(1, 0)`
whenever Snell's law gives a transmitted sine at least `1`. -/
theorem claim_C2_fresnel_cases :
    (∀ n c : ℝ, calcFresnel n n c = (0, c)) ∧
    (∀ n1 n2 c : ℝ, |c| > COSZERO →
      calcFresnel n1 n2 c = (((n2 - n1) / (n2 + n1)) ^ 2, c)) ∧
    (∀ n1 n2 c : ℝ, n1 ≠ n2 → |c| < COS90 → calcFresnel n1 n2 c = (1, 0)) ∧
    (∀ n1 n2 c : ℝ, n1 ≠ n2 → ¬(|c| > COSZERO) → ¬(|c| < COS90) →
      (n1 / n2) * Real.sqrt (1 - |c| ^ 2) ≥ 1 →
      calcFresnel n1 n2 c = (1, 0)) := by
  refine ⟨fun n c => by simp [calcFresnel], ?_, ?_, ?_⟩
  · intro n1 n2 c hc
    by_cases h : n1 = n2
    · subst h; simp [calcFresnel]
    · simp [calcFresnel, h, hc]
  · intro n1 n2 c hne hc
    have h1 : ¬(|c| > COSZERO) := by
      simp only [COS90, COSZERO] at hc ⊢; push_neg; nlinarith [abs_nonneg c]
    simp [calcFresnel, hne, h1, hc]
  · intro n1 n2 c hne h1 h2 hsnell
    have hsnell' : 1 ≤ n1 / n2 * Real.sqrt (1 - c ^ 2) := by rwa [sq_abs] at hsnell
    simp only [calcFresnel, hne, h1, h2, sq_abs, if_false, ite_false,
      ge_iff_le, hsnell', if_true, ite_true]

/-- Witness: each of the four cases of C2 holds at a concrete input. -/
theorem claim_C2_witness :
    calcFresnel 2 2 (1 / 3) = (0, 1 / 3) ∧
    calcFresnel 1 2 1 = (((2 - 1) / (2 + 1)) ^ 2, 1) ∧
    calcFresnel 1 2 0 = (1, 0) ∧
    calcFresnel 4 1 (1 / 2) = (1, 0) := by
  refine ⟨claim_C2_fresnel_cases.1 2 (1 / 3),
          claim_C2_fresnel_cases.2.1 1 2 1 (by norm_num [COSZERO]),
          claim_C2_fresnel_cases.2.2.1 1 2 0 (by norm_num) (by norm_num [COS90]),
          claim_C2_fresnel_cases.2.2.2 4 1 (1 / 2) (by norm_num)
            (by rw [not_lt, show |(1 : ℝ) / 2| = 1 / 2 from abs_of_pos (by norm_num)]
                norm_num [COSZERO])
            (by rw [not_lt, show |(1 : ℝ) / 2| = 1 / 2 from abs_of_pos (by norm_num)]
                norm_num [COS90]) ?_⟩
  have h : (1 : ℝ) / 2 ≤ Real.sqrt (1 - |(1 : ℝ) / 2| ^ 2) := by
    rw [show (1 : ℝ) - |(1 : ℝ) / 2| ^ 2 = 3 / 4 by rw [abs_of_pos] <;> norm_num]
    rw [show (1 : ℝ) / 2 = Real.sqrt ((1 / 2) ^ 2) by
      rw [Real.sqrt_sq (by norm_num)]]
    exact Real.sqrt_le_sqrt (by norm_num)
  nlinarith [h]

/-- Counterexample to C2 as stated: the near-grazing case does *not*
return reflectance `1` unconditionally — with equal indices
(`n1 = n2 = 1`, `cosInc = 0`) the equal-index branch fires first and the
reflectance is `0`. -/
theorem claim_C2_counterexample :
    ¬(∀ n1 n2 c : ℝ, |c| < COS90 → calcFresnel n1 n2 c = (1, 0)) := by
  intro h
  have h0 := h 1 1 0 (by norm_num [COS90])
  rw [show calcFresnel 1 1 0 = (0, 0) by simp [calcFresnel]] at h0
  exact absurd (congrArg Prod.fst h0) (by norm_num)

/-! ### Claim C9: partiality of `boundaryHit` -/

/-- Claim C9: for a horizontal photon (`uz = 0`) no branch of
`boundaryHit` assigns `hit`, so the call fails (`none`) instead of
returning `false`; for any `uz ≠ 0` it returns normally; and the
glass-layer path is the one that deterministically kills horizontal
photons. -/
theorem claim_C9_boundaryHit_partiality :
    (∀ (m : MCModel) (p : Photon), p.uz = 0 → boundaryHit m p = none) ∧
    (∀ (m : MCModel) (p : Photon), p.uz ≠ 0 →
      (boundaryHit m p).isSome = true) ∧
    (∀ (m : MCModel) (p : Photon) (stream : List ℝ), p.uz = 0 →
      hopDropSpinGlass m p stream = (m, { p with dead := true }, stream)) := by
  refine ⟨fun m p h => by simp [boundaryHit, h], ?_,
          fun m p stream h => by simp [hopDropSpinGlass, h]⟩
  intro m p h
  simp only [boundaryHit, h, ne_eq, not_false_iff, if_true]
  split <;> rfl

/-- Witness for C9 at a concrete horizontal photon. -/
theorem claim_C9_witness :
    boundaryHit (mkModel [exAir, exTissue, exAir] 1)
      { x := 0, y := 0, z := 1 / 2, ux := 1, uy := 0, uz := 0, w := 1,
        dead := false, layer := 1, s := 1, s_rem := 0 } = none :=
  claim_C9_boundaryHit_partiality.1 _ _ rfl

/-! ### Claim C6: residual-step bookkeeping -/

/-- Claim C6: when the sampled step overshoots the layer face,
`boundaryHit` truncates it to the face distance and stores the overshoot
in optical-path units `(s - d_b) · mut`; the next `stepSizeTissue` call,
finding a nonzero residual, converts it back with the (possibly new)
current layer's `mut` and clears it, consuming no random draw. -/
theorem claim_C6_residual_step :
    (∀ (m : MCModel) (p : Photon), p.uz ≠ 0 → p.s > faceDistance m p →
      boundaryHit m p = some (true,
        { p with s := faceDistance m p,
                 s_rem := (p.s - faceDistance m p) *
                   ((m.layerAt p.layer).mua + (m.layerAt p.layer).mus) })) ∧
    (∀ (m : MCModel) (p : Photon) (stream : List ℝ), p.s_rem ≠ 0 →
      stepSizeTissue m p stream =
        ({ p with
            s := p.s_rem / ((m.layerAt p.layer).mua + (m.layerAt p.layer).mus),
            s_rem := 0 }, stream)) ∧
    (∀ (m : MCModel) (p : Photon) (newLayer : ℕ) (stream : List ℝ),
      p.uz ≠ 0 → p.s > faceDistance m p →
      (p.s - faceDistance m p) *
        ((m.layerAt p.layer).mua + (m.layerAt p.layer).mus) ≠ 0 →
      ∀ q, boundaryHit m p = some (true, q) →
      stepSizeTissue m { q with layer := newLayer } stream =
        ({ q with
            layer := newLayer,
            s := ((p.s - faceDistance m p) *
                  ((m.layerAt p.layer).mua + (m.layerAt p.layer).mus)) /
                 ((m.layerAt newLayer).mua + (m.layerAt newLayer).mus),
            s_rem := 0 }, stream)) := by
  refine ⟨?_, ?_, ?_⟩
  · intro m p huz hgt
    simp [boundaryHit, huz, hgt]
  · intro m p stream hrem
    simp [stepSizeTissue, hrem]
  · intro m p newLayer stream huz hgt hrem q hq
    have hb : boundaryHit m p = some (true,
        { p with
            s := faceDistance m p,
            s_rem := (p.s - faceDistance m p) *
              ((m.layerAt p.layer).mua + (m.layerAt p.layer).mus) }) := by
      simp [boundaryHit, huz, hgt]
    have hq' : q = { p with
        s := faceDistance m p,
        s_rem := (p.s - faceDistance m p) *
          ((m.layerAt p.layer).mua + (m.layerAt p.layer).mus) } := by
      have h2 := hq.symm.trans hb
      simpa using h2
    subst hq'
    simp [stepSizeTissue, hrem]

/-- Single-tissue-layer stack bounded by air, used for concrete walks. -/
noncomputable def exModel1 : MCModel := mkModel [exAir, exTissue, exAir] 1

/-- Downward photon in `exModel1` whose stored step `s = 2` overshoots the
bottom face of layer 1 (at depth 1). -/
noncomputable def exOvershoot : Photon :=
  { x := 0, y := 0, z := 0, ux := 0, uy := 0, uz := 1, w := 1,
    dead := false, layer := 1, s := 2, s_rem := 0 }

/-- Witness for C6 on a concrete overshooting photon. -/
theorem claim_C6_witness :
    boundaryHit exModel1 exOvershoot = some (true,
      { exOvershoot with
          s := faceDistance exModel1 exOvershoot,
          s_rem := (exOvershoot.s - faceDistance exModel1 exOvershoot) *
            ((exModel1.layerAt exOvershoot.layer).mua +
             (exModel1.layerAt exOvershoot.layer).mus) }) := by
  have hd : faceDistance exModel1 exOvershoot = 1 := by
    simp [faceDistance, exModel1, exOvershoot, mkModel, MCModel.depthAt,
      depthsFrom, exTissue, List.getD]
  exact claim_C6_residual_step.1 exModel1 exOvershoot
    (by norm_num [exOvershoot]) (by rw [hd]; norm_num [exOvershoot])

/-! ### Claim C10: launch state of a fresh photon -/

/-- Claim C10: a fresh photon always has `layer = 1` (the glass-skip
assignment `layer = 2` is overwritten), weight `1 - Rsp`, direction
`(0,0,1)` and `s = s_rem = 0`; its depth is the top of layer 2 — equal to
the bottom of the glass layer — when the first tissue layer is glass-like,
and `0` otherwise. -/
theorem claim_C10_launch_state (L : List Layer) (n : ℕ) :
    (mkPhoton (mkModel L n)).layer = 1 ∧
    (mkPhoton (mkModel L n)).w = 1 - (mkModel L n).Rsp ∧
    (mkPhoton (mkModel L n)).ux = 0 ∧ (mkPhoton (mkModel L n)).uy = 0 ∧
    (mkPhoton (mkModel L n)).uz = 1 ∧
    (mkPhoton (mkModel L n)).s = 0 ∧ (mkPhoton (mkModel L n)).s_rem = 0 ∧
    (¬((L.getD 1 defaultLayer).mua = 0 ∧ (L.getD 1 defaultLayer).mus = 0) →
      (mkPhoton (mkModel L n)).z = 0) ∧
    ((L.getD 1 defaultLayer).mua = 0 ∧ (L.getD 1 defaultLayer).mus = 0 →
      (mkPhoton (mkModel L n)).z = ((mkModel L n).depthAt 2).1) ∧
    ((L.getD 1 defaultLayer).mua = 0 ∧ (L.getD 1 defaultLayer).mus = 0 →
      2 ≤ n → (mkPhoton (mkModel L n)).z = ((mkModel L n).depthAt 1).2) := by
  have hz : ∀ k : ℕ, (mkPhoton (mkModel L k)).z =
      if (L.getD 1 defaultLayer).mua = 0 ∧ (L.getD 1 defaultLayer).mus = 0
      then ((mkModel L k).depthAt 2).1 else 0 := fun _ => rfl
  refine ⟨rfl, rfl, rfl, rfl, rfl, rfl, rfl, ?_, ?_, ?_⟩
  · intro hng
    rw [hz n, if_neg hng]
  · intro hg
    rw [hz n, if_pos hg]
  · intro hg hn
    obtain ⟨k, rfl⟩ : ∃ k, n = k + 2 := ⟨n - 2, by omega⟩
    rw [hz (k + 2), if_pos hg]
    simp [mkModel, MCModel.depthAt, depthsFrom, List.getD]

/-- Witness for C10 on a concrete glass-first two-layer stack: the photon
starts in layer 1 but at the bottom depth of the glass layer. -/
theorem claim_C10_witness :
    (mkPhoton (mkModel [exAir, exGlass, exTissue, exAir] 2)).layer = 1 ∧
    (mkPhoton (mkModel [exAir, exGlass, exTissue, exAir] 2)).z =
      ((mkModel [exAir, exGlass, exTissue, exAir] 2).depthAt 1).2 :=
  ⟨(claim_C10_launch_state [exAir, exGlass, exTissue, exAir] 2).1,
   (claim_C10_launch_state [exAir, exGlass, exTissue, exAir] 2).2.2.2.2.2.2.2.2.2
     ⟨rfl, rfl⟩ (by norm_num)⟩

/-! ### Claim C5: boundary resolution -/

/-- Claim C5 (amended): at a layer face with `|uz|` at most the
precomputed critical cosine, the photon is always internally reflected —
`uz` flips; layer, position and weight are unchanged — for every value of
the uniform draw (one draw is still consumed by `np.random.random() > r`,
but with `r = 1` it cannot change the outcome).  Otherwise `r` comes from
`calcFresnel` and the fresh draw decides: `u > r` transmits (interior
neighbor: layer changes by one in the travel direction, `ux, uy` scale by
`n_i / n_t`, `uz` becomes the signed transmitted cosine), `u ≤ r`
reflects. -/
theorem claim_C5_boundary_resolution :
    (∀ (m : MCModel) (p : Photon) (u : ℝ) (rest : List ℝ), p.uz < 0 →
      |p.uz| ≤ (m.critAt p.layer).1 → u ≤ 1 →
      newLayerCheck m p (u :: rest) = (m, { p with uz := -p.uz }, rest)) ∧
    (∀ (m : MCModel) (p : Photon) (u : ℝ) (rest : List ℝ), ¬(p.uz < 0) →
      |p.uz| ≤ (m.critAt p.layer).2 → u ≤ 1 →
      newLayerCheck m p (u :: rest) = (m, { p with uz := -p.uz }, rest)) ∧
    (∀ (m : MCModel) (p : Photon) (u : ℝ) (rest : List ℝ), p.uz < 0 →
      ¬(|p.uz| ≤ (m.critAt p.layer).1) → p.layer ≠ 1 →
      u > (calcFresnel (m.layerAt p.layer).n
            (m.layerAt (p.layer - 1)).n |p.uz|).1 →
      newLayerCheck m p (u :: rest) = (m, { p with
          layer := p.layer - 1,
          ux := p.ux * ((m.layerAt p.layer).n / (m.layerAt (p.layer - 1)).n),
          uy := p.uy * ((m.layerAt p.layer).n / (m.layerAt (p.layer - 1)).n),
          uz := -(calcFresnel (m.layerAt p.layer).n
                   (m.layerAt (p.layer - 1)).n |p.uz|).2 }, rest)) ∧
    (∀ (m : MCModel) (p : Photon) (u : ℝ) (rest : List ℝ), ¬(p.uz < 0) →
      ¬(|p.uz| ≤ (m.critAt p.layer).2) → p.layer ≠ m.numberOfLayers →
      u > (calcFresnel (m.layerAt p.layer).n
            (m.layerAt (p.layer + 1)).n p.uz).1 →
      newLayerCheck m p (u :: rest) = (m, { p with
          layer := p.layer + 1,
          ux := p.ux * ((m.layerAt p.layer).n / (m.layerAt (p.layer + 1)).n),
          uy := p.uy * ((m.layerAt p.layer).n / (m.layerAt (p.layer + 1)).n),
          uz := (calcFresnel (m.layerAt p.layer).n
                  (m.layerAt (p.layer + 1)).n p.uz).2 }, rest)) ∧
    (∀ (m : MCModel) (p : Photon) (u : ℝ) (rest : List ℝ), p.uz < 0 →
      ¬(|p.uz| ≤ (m.critAt p.layer).1) →
      u ≤ (calcFresnel (m.layerAt p.layer).n
            (m.layerAt (p.layer - 1)).n |p.uz|).1 →
      newLayerCheck m p (u :: rest) = (m, { p with uz := -p.uz }, rest)) ∧
    (∀ (m : MCModel) (p : Photon) (u : ℝ) (rest : List ℝ), ¬(p.uz < 0) →
      ¬(|p.uz| ≤ (m.critAt p.layer).2) →
      u ≤ (calcFresnel (m.layerAt p.layer).n
            (m.layerAt (p.layer + 1)).n p.uz).1 →
      newLayerCheck m p (u :: rest) = (m, { p with uz := -p.uz }, rest)) := by
  refine ⟨?_, ?_, ?_, ?_, ?_, ?_⟩
  · intro m p u rest hup htir hu
    simp [newLayerCheck, hup, htir, prFlag, not_lt.mpr hu]
  · intro m p u rest hdn htir hu
    simp [newLayerCheck, hdn, htir, prFlag, not_lt.mpr hu]
  · intro m p u rest hup htir hlay hu
    simp [newLayerCheck, hup, htir, prFlag, hu, hlay]
  · intro m p u rest hdn htir hlay hu
    simp [newLayerCheck, hdn, htir, prFlag, hu, hlay]
  · intro m p u rest hup htir hu
    simp [newLayerCheck, hup, htir, prFlag, not_lt.mpr hu]
  · intro m p u rest hdn htir hu
    simp [newLayerCheck, hdn, htir, prFlag, not_lt.mpr hu]

/-- Three-layer stack whose middle tissue layer 2 is optically dense
(`n = 2`) below an index-1 layer, so its top face has critical cosine
`sqrt (3 / 4)`. -/
noncomputable def c5m : MCModel := mkModel [exAir, exTissue, exDense, exAir] 2

/-- Upward photon in layer 2 of `c5m` with `|uz| = 1/2`, inside the
total-internal-reflection cone of the top face. -/
noncomputable def c5p : Photon :=
  { x := 0, y := 0, z := 3 / 2, ux := Real.sqrt (3 / 4), uy := 0,
    uz := -(1 / 2), w := 1 / 2, dead := false, layer := 2, s := 0,
    s_rem := 0 }

/-- The photon `c5p` satisfies the forced-reflection test of the top face
of layer 2 in `c5m`. -/
theorem c5p_tir : |c5p.uz| ≤ (c5m.critAt c5p.layer).1 := by
  have hcrit : (c5m.critAt c5p.layer).1 = Real.sqrt (1 - 1 ^ 2 / 2 ^ 2) := by
    simp [c5m, c5p, mkModel, MCModel.critAt, critFrom, critPair, List.getD,
      exAir, exTissue, exDense]
  rw [hcrit, show |c5p.uz| = 1 / 2 by rw [show c5p.uz = -(1 / 2) from rfl]; norm_num]
  rw [Real.le_sqrt' (by norm_num)]
  norm_num

/-- Witness for C5: forced total internal reflection at a concrete state,
for the concrete draw `1/3`. -/
theorem claim_C5_witness :
    newLayerCheck c5m c5p [(1 : ℝ) / 3] = (c5m, { c5p with uz := -c5p.uz }, []) :=
  claim_C5_boundary_resolution.1 c5m c5p (1 / 3) []
    (by rw [show c5p.uz = -(1 / 2) from rfl]; norm_num) c5p_tir (by norm_num)

/-- Counterexample to C5 as stated: during forced total internal
reflection a uniform draw *is* consumed — `np.random.random() > r` is
still evaluated — so the returned stream is the tail, not the input
stream. -/
theorem claim_C5_counterexample :
    |c5p.uz| ≤ (c5m.critAt c5p.layer).1 ∧
    (newLayerCheck c5m c5p [(1 : ℝ) / 3]).2.2 ≠ [(1 : ℝ) / 3] := by
  refine ⟨c5p_tir, ?_⟩
  have hup : c5p.uz < 0 := by
    rw [show c5p.uz = -(1 / 2) from rfl]; norm_num
  simp [newLayerCheck, hup, c5p_tir, prFlag,
    show ¬((1 : ℝ) < 3⁻¹) by norm_num]

/-! ### Claim C3: the drop step -/

/-- `binClamp` is clamping to the last valid bin. -/
theorem binClamp_eq_min (i : ℤ) (n : ℕ) : binClamp i n = min ((n : ℤ) - 1) i := by
  unfold binClamp
  rcases lt_or_le ((n : ℤ) - 1) i with h | h
  · rw [if_pos h, min_eq_left (le_of_lt h)]
  · rw [if_neg (not_lt.mpr h), min_eq_right h]

/-- Python `int()` agrees with `floor` on nonnegative reals. -/
theorem rtrunc_of_nonneg {x : ℝ} (h : 0 ≤ x) : rtrunc x = ⌊x⌋ := if_pos h

/-- Claim C3 (amended): for a photon whose current layer is *not* the
muscle layer, `drop` subtracts exactly `w·mua/(mua+mus)` from the weight
and adds the same amount to `A_rz` at the clamped bin
`(min (nr-1) ⌊√(x²+y²)/dr⌋, min (nz-1) ⌊z/dz⌋)`, changing nothing else
(position, direction, layer, alive flag, and every other model field are
untouched, and the draw is not consumed). -/
theorem claim_C3_drop (m : MCModel) (p : Photon) (u : ℝ)
    (hname : lowerStr (m.layerAt p.layer).name ≠ lowerStr "muscle")
    (hdr : 0 < m.dr) (hdz : 0 < m.dz) (hz : 0 ≤ p.z) :
    drop m p u =
      ({ m with A_rz := fun i j =>
          if i = min ((m.nr : ℤ) - 1) ⌊Real.sqrt (p.x ^ 2 + p.y ^ 2) / m.dr⌋ ∧
             j = min ((m.nz : ℤ) - 1) ⌊p.z / m.dz⌋ then
            m.A_rz i j + p.w * (m.layerAt p.layer).mua /
              ((m.layerAt p.layer).mua + (m.layerAt p.layer).mus)
          else m.A_rz i j },
       { p with w := p.w - p.w * (m.layerAt p.layer).mua /
          ((m.layerAt p.layer).mua + (m.layerAt p.layer).mus) }) := by
  have hir : dropIr m p =
      min ((m.nr : ℤ) - 1) ⌊Real.sqrt (p.x ^ 2 + p.y ^ 2) / m.dr⌋ := by
    rw [dropIr, rtrunc_of_nonneg (div_nonneg (Real.sqrt_nonneg _) hdr.le),
      binClamp_eq_min]
  have hiz : dropIz m p = min ((m.nz : ℤ) - 1) ⌊p.z / m.dz⌋ := by
    rw [dropIz, rtrunc_of_nonneg (div_nonneg hz hdz.le), binClamp_eq_min]
  rw [drop]
  rw [if_neg hname]
  rw [dropCore, hir, hiz]

/-- Witness for C3: in the non-muscle single-layer stack the drop removes
`w · mua / (mua + mus)` from the launched photon's weight. -/
theorem claim_C3_witness :
    (drop exModel1 (mkPhoton exModel1) 0).2.w =
      (mkPhoton exModel1).w - (mkPhoton exModel1).w *
        (exModel1.layerAt (mkPhoton exModel1).layer).mua /
        ((exModel1.layerAt (mkPhoton exModel1).layer).mua +
         (exModel1.layerAt (mkPhoton exModel1).layer).mus) := by
  have h := claim_C3_drop exModel1 (mkPhoton exModel1) 0
    (by decide)
    (by rw [show exModel1.dr = 1 / 50 from rfl]; norm_num)
    (by rw [show exModel1.dz = 1 / 50 from rfl]; norm_num)
    (by simp [mkPhoton, exModel1, mkModel, MCModel.layerAt, List.getD, exTissue])
  rw [h]

/-- Single-muscle-layer stack: the layer is named `"muscle"` and carries
bone constants `nBone = 2`, `muaBone = musBone = 1`. -/
noncomputable def c3m : MCModel := mkModel [exAir, exMuscle, exAir] 1

/-- The freshly launched photon of `c3m` (straight down, `uz = 1`). -/
noncomputable def c3p : Photon := mkPhoton c3m

/-- Counterexample to C3 as stated: in the muscle layer, `drop` evaluates
`inBone`, which mutates the direction — here the bone-interface Fresnel
test with draw `0` reflects the photon, flipping `uz` from `1` to `-1` —
so `drop` does *not* leave every non-weight field unchanged. -/
theorem claim_C3_counterexample :
    c3p.uz = 1 ∧ (drop c3m c3p 0).2.uz = -1 := by
  refine ⟨rfl, ?_⟩
  have hname : lowerStr (c3m.layerAt c3p.layer).name = lowerStr "muscle" := rfl
  have hn : (c3m.layerAt c3p.layer).n = 1 := rfl
  have hb : (c3m.layerAt c3p.layer).nBone = 2 := rfl
  have huz : c3p.uz = 1 := rfl
  have hfres : calcFresnel (c3m.layerAt c3p.layer).n
      (c3m.layerAt c3p.layer).nBone |c3p.uz| = (1 / 9, 1) := by
    rw [hn, hb, huz]
    norm_num [calcFresnel, COSZERO]
  have hbone : inBone c3m c3p 0 = ({ c3p with uz := -c3p.uz }, false) := by
    rw [inBone, hfres]
    norm_num
  rw [drop, if_pos hname, hbone]
  simp [dropCore, huz]

/-! ### Claim C4: exit-weight deposit rule -/

/-- Claim C4 (amended): `recordReduce` deposits `w·(1-reflectance)` at the
clamped radial/angular bin — into `Rd_ra` when the photon's layer is `1`
and into `Tt_ra` otherwise — and multiplies the weight by `reflectance`;
in the default mode, a top exit (upward from layer 1) and a bottom exit
(downward from the last layer, *provided the stack has at least two
layers* so that the last layer is not layer 1) pass reflectance `0`,
deposit the full remaining weight into `Rd_ra` resp. `Tt_ra`, zero the
weight and mark the photon dead. -/
theorem claim_C4_exit_deposit :
    (∀ (m : MCModel) (p : Photon) (r : ℝ), 0 < m.dr → 0 < m.da →
      p.layer = 1 →
      recordReduce m p r =
        ({ m with Rd_ra := fun i j =>
            if i = min ((m.nr : ℤ) - 1) ⌊Real.sqrt (p.x ^ 2 + p.y ^ 2) / m.dr⌋ ∧
               j = min ((m.na : ℤ) - 1) ⌊Real.arccos |p.uz| / m.da⌋ then
              m.Rd_ra i j + p.w * (1 - r) else m.Rd_ra i j },
         { p with w := p.w * r })) ∧
    (∀ (m : MCModel) (p : Photon) (r : ℝ), 0 < m.dr → 0 < m.da →
      p.layer ≠ 1 →
      recordReduce m p r =
        ({ m with Tt_ra := fun i j =>
            if i = min ((m.nr : ℤ) - 1) ⌊Real.sqrt (p.x ^ 2 + p.y ^ 2) / m.dr⌋ ∧
               j = min ((m.na : ℤ) - 1) ⌊Real.arccos |p.uz| / m.da⌋ then
              m.Tt_ra i j + p.w * (1 - r) else m.Tt_ra i j },
         { p with w := p.w * r })) ∧
    (∀ (m : MCModel) (p : Photon) (u : ℝ) (rest : List ℝ), p.uz < 0 →
      ¬(|p.uz| ≤ (m.critAt p.layer).1) → p.layer = 1 →
      u > (calcFresnel (m.layerAt p.layer).n
            (m.layerAt (p.layer - 1)).n |p.uz|).1 →
      ((newLayerCheck m p (u :: rest)).2.1.dead = true ∧
       (newLayerCheck m p (u :: rest)).2.1.w = 0 ∧
       (newLayerCheck m p (u :: rest)).1.Tt_ra = m.Tt_ra ∧
       (newLayerCheck m p (u :: rest)).1.Rd_ra =
         (recordReduce m { p with uz := -(calcFresnel (m.layerAt p.layer).n
             (m.layerAt (p.layer - 1)).n |p.uz|).2 } 0).1.Rd_ra)) ∧
    (∀ (m : MCModel) (p : Photon) (u : ℝ) (rest : List ℝ), ¬(p.uz < 0) →
      ¬(|p.uz| ≤ (m.critAt p.layer).2) → p.layer = m.numberOfLayers →
      p.layer ≠ 1 →
      u > (calcFresnel (m.layerAt p.layer).n
            (m.layerAt (p.layer + 1)).n p.uz).1 →
      ((newLayerCheck m p (u :: rest)).2.1.dead = true ∧
       (newLayerCheck m p (u :: rest)).2.1.w = 0 ∧
       (newLayerCheck m p (u :: rest)).1.Rd_ra = m.Rd_ra ∧
       (newLayerCheck m p (u :: rest)).1.Tt_ra =
         (recordReduce m { p with uz := (calcFresnel (m.layerAt p.layer).n
             (m.layerAt (p.layer + 1)).n p.uz).2 } 0).1.Tt_ra)) := by
  have hbins : ∀ (m : MCModel) (p : Photon), 0 < m.dr → 0 < m.da →
      rrIr m p = min ((m.nr : ℤ) - 1) ⌊Real.sqrt (p.x ^ 2 + p.y ^ 2) / m.dr⌋ ∧
      rrIa m p = min ((m.na : ℤ) - 1) ⌊Real.arccos |p.uz| / m.da⌋ := by
    intro m p hdr hda
    constructor
    · rw [rrIr, rtrunc_of_nonneg (div_nonneg (Real.sqrt_nonneg _) hdr.le),
        binClamp_eq_min]
    · rw [rrIa, rtrunc_of_nonneg
        (div_nonneg (Real.arccos_nonneg _) hda.le), binClamp_eq_min]
  refine ⟨?_, ?_, ?_, ?_⟩
  · intro m p r hdr hda hl
    rw [recordReduce, if_pos hl, (hbins m p hdr hda).1, (hbins m p hdr hda).2]
  · intro m p r hdr hda hl
    rw [recordReduce, if_neg hl, (hbins m p hdr hda).1, (hbins m p hdr hda).2]
  · intro m p u rest hup htir hl hu
    have hl' : p.layer = 1 := hl
    simp only [newLayerCheck, if_pos hup, if_neg htir, prFlag]
    rw [if_neg (by norm_num : ¬(0 : ℕ) = 1)]
    simp only [List.headD_cons, List.tail_cons]
    rw [if_pos hu, if_pos hl]
    refine ⟨rfl, ?_, ?_, rfl⟩
    · simp [recordReduce, hl]
    · simp [recordReduce, hl]
  · intro m p u rest hdn htir hl hl1 hu
    simp only [newLayerCheck, if_neg hdn, if_neg htir, prFlag]
    rw [if_neg (by norm_num : ¬(0 : ℕ) = 1)]
    simp only [List.headD_cons, List.tail_cons]
    rw [if_pos hu, if_pos hl]
    refine ⟨rfl, ?_, ?_, rfl⟩
    · simp [recordReduce, hl1]
    · simp [recordReduce, hl1]

/-- Witness for C4: on the launched photon (layer 1), `recordReduce` with
reflectance `1/2` halves the weight. -/
theorem claim_C4_witness :
    (recordReduce exModel1 (mkPhoton exModel1) (1 / 2)).2.w =
      (mkPhoton exModel1).w * (1 / 2) := by
  have h := claim_C4_exit_deposit.1 exModel1 (mkPhoton exModel1) (1 / 2)
    (by rw [show exModel1.dr = 1 / 50 from rfl]; norm_num)
    (by rw [show exModel1.da = 0.5 * Real.pi / 30 from rfl]; positivity)
    rfl
  rw [h]

/-- The freshly launched photon of the one-layer stack `exModel1`
(straight down, `uz = 1`, full weight `1`, in layer 1 which is also the
last layer). -/
noncomputable def c4p : Photon := mkPhoton exModel1

/-- Counterexample to C4 as stated: in a one-layer stack the bottom exit
(downward transmission out of the last layer) deposits into `Rd_ra`, not
`Tt_ra`, because `recordReduce` routes on `layer == 1`: the photon dies
with its full weight `1` recorded in `Rd_ra[0,0]` while `Tt_ra` stays
zero. -/
theorem claim_C4_counterexample :
    c4p.layer = exModel1.numberOfLayers ∧ ¬(c4p.uz < 0) ∧
    (newLayerCheck exModel1 c4p [(1 : ℝ) / 2]).2.1.dead = true ∧
    (newLayerCheck exModel1 c4p [(1 : ℝ) / 2]).1.Tt_ra 0 0 = 0 ∧
    (newLayerCheck exModel1 c4p [(1 : ℝ) / 2]).1.Rd_ra 0 0 = c4p.w * (1 - 0) ∧
    c4p.w * (1 - 0) ≠ 0 := by
  have hdn : ¬(c4p.uz < 0) := by
    rw [show c4p.uz = 1 from rfl]; norm_num
  have hcrit : (exModel1.critAt 1).2 = 0 := by
    rw [show exModel1.critAt 1 = critPair [exAir, exTissue, exAir] 1
      from rfl]
    norm_num [critPair, List.getD, exAir, exTissue]
  have htir : ¬(|c4p.uz| ≤ (exModel1.critAt 1).2) := by
    rw [hcrit, show c4p.uz = 1 from rfl]; norm_num
  have hfres : calcFresnel (exModel1.layerAt 1).n
      (exModel1.layerAt 2).n c4p.uz = (0, 1) := by
    rw [show (exModel1.layerAt 1).n = 1 from rfl,
        show (exModel1.layerAt 2).n = 1 from rfl,
        show c4p.uz = 1 from rfl]
    norm_num [calcFresnel]
  have hrsp : exModel1.Rsp = 0 := by
    rw [show exModel1.Rsp = calcSpecular [exAir, exTissue, exAir] from rfl]
    norm_num [calcSpecular, List.getD, exAir, exTissue]
  have hw : c4p.w = 1 := by
    rw [show c4p.w = 1 - exModel1.Rsp from rfl, hrsp]; norm_num
  have hir : rrIr exModel1 { c4p with uz := 1 } = 0 := by
    rw [rrIr, show ({ c4p with uz := 1 } : Photon).x = 0 from rfl,
        show ({ c4p with uz := 1 } : Photon).y = 0 from rfl,
        show exModel1.dr = 1 / 50 from rfl,
        show exModel1.nr = 250 from rfl]
    norm_num [rtrunc, binClamp]
  have hia : rrIa exModel1 { c4p with uz := 1 } = 0 := by
    rw [rrIa, show ({ c4p with uz := 1 } : Photon).uz = 1 from rfl,
        show exModel1.na = 30 from rfl]
    norm_num [Real.arccos_one, rtrunc, binClamp]
  have hrun : newLayerCheck exModel1 c4p [(1 : ℝ) / 2] =
      ((recordReduce exModel1 { c4p with uz := 1 } 0).1,
       { (recordReduce exModel1 { c4p with uz := 1 } 0).2 with dead := true },
       []) := by
    norm_num [newLayerCheck, prFlag, hdn, htir, hfres,
      show c4p.layer = 1 from rfl, show exModel1.numberOfLayers = 1 from rfl]
  refine ⟨rfl, hdn, ?_, ?_, ?_, ?_⟩
  · rw [hrun]
  · rw [hrun]
    rw [show (recordReduce exModel1 { c4p with uz := 1 } 0).1.Tt_ra =
      exModel1.Tt_ra from by
        rw [recordReduce, if_pos (show ({ c4p with uz := 1 } : Photon).layer = 1
          from rfl)]]
    rfl
  · rw [hrun]
    rw [show (recordReduce exModel1 { c4p with uz := 1 } 0).1.Rd_ra =
      fun i j => if i = rrIr exModel1 { c4p with uz := 1 } ∧
          j = rrIa exModel1 { c4p with uz := 1 } then
        exModel1.Rd_ra i j + ({ c4p with uz := 1 } : Photon).w * (1 - 0)
      else exModel1.Rd_ra i j from by
        rw [recordReduce, if_pos (show ({ c4p with uz := 1 } : Photon).layer = 1
          from rfl)]]
    rw [show ({ c4p with uz := 1 } : Photon).w = c4p.w from rfl]
    simp only [hir, hia, and_self, if_true, ite_true]
    rw [show exModel1.Rd_ra 0 0 = 0 from rfl]
    ring
  · rw [hw]; norm_num

/-! ### Claim C7: unit-norm direction invariant -/

/-- `realSign` squares to `1` away from zero. -/
theorem realSign_sq {r : ℝ} (h : r ≠ 0) : realSign r ^ 2 = 1 := by
  unfold realSign
  rcases lt_trichotomy r 0 with hr | hr | hr
  · rw [if_neg (by linarith), if_pos hr]; norm_num
  · exact absurd hr h
  · rw [if_pos hr]; norm_num

/-- The sampled deflection cosine always lies in `[-1, 1]` (the `g ≠ 0`
branch is clamped; the isotropic branch needs `u ∈ [0, 1]`). -/
theorem sampleCosTheta_mem (g u : ℝ) (hu : g = 0 → 0 ≤ u ∧ u ≤ 1) :
    -1 ≤ sampleCosTheta g u ∧ sampleCosTheta g u ≤ 1 := by
  unfold sampleCosTheta
  by_cases hg : g = 0
  · rw [if_pos hg]
    obtain ⟨h0, h1⟩ := hu hg
    constructor <;> linarith
  · rw [if_neg hg]
    set ct := (1 + g ^ 2 - ((1 - g ^ 2) / (1 - g + 2 * g * u)) ^ 2) / (2 * g)
    by_cases hlo : ct < -1
    · rw [if_pos hlo]; norm_num
    · rw [if_neg hlo]
      by_cases hhi : ct > 1
      · rw [if_pos hhi]; norm_num
      · rw [if_neg hhi]
        exact ⟨not_lt.mp hlo, not_lt.mp hhi⟩

/-- Claim C7 (amended): (i) the spin direction update preserves
`ux² + uy² + uz² = 1` exactly, for every deflection cosine in `[-1, 1]`
and every azimuth, hence (ii) so does the full `spin` operation; (iii)
the boundary transmission update preserves the unit norm when the indices
are equal, and (iv) when `calcFresnel` takes its general refracting
branch.  (In the near-normal branch it does *not* hold exactly — see the
counterexample.) -/
theorem claim_C7_unit_norm :
    (∀ (p : Photon) (ct ψ : ℝ), unitDir p → -1 ≤ ct → ct ≤ 1 →
      unitDir (spinWith p ct ψ)) ∧
    (∀ (p : Photon) (g u1 u2 : ℝ), unitDir p → (g = 0 → 0 ≤ u1 ∧ u1 ≤ 1) →
      unitDir (spin p g u1 u2)) ∧
    (∀ (p : Photon) (n : ℝ), n ≠ 0 → unitDir p →
      unitDir (transmitUpdate p n n |p.uz|)) ∧
    (∀ (p : Photon) (n1 n2 : ℝ), 0 < n1 → 0 < n2 → n1 ≠ n2 → unitDir p →
      ¬(|p.uz| > COSZERO) → ¬(|p.uz| < COS90) →
      (n1 / n2) * Real.sqrt (1 - |p.uz| ^ 2) < 1 →
      unitDir (transmitUpdate p n1 n2 |p.uz|)) := by
  have spin_part : ∀ (p : Photon) (ct ψ : ℝ), unitDir p → -1 ≤ ct → ct ≤ 1 →
      unitDir (spinWith p ct ψ) := by
    intro p ct ψ hp hct1 hct2
    have hst : Real.sqrt (1 - ct ^ 2) ^ 2 = 1 - ct ^ 2 :=
      Real.sq_sqrt (by nlinarith)
    have hcp2 : Real.cos ψ ^ 2 ≤ 1 := Real.cos_sq_le_one ψ
    unfold unitDir at hp ⊢
    simp only [spinWith]
    generalize hspg : (if ψ < Real.pi then Real.sqrt (1 - Real.cos ψ ^ 2)
        else -Real.sqrt (1 - Real.cos ψ ^ 2)) = sp
    have hsp : sp ^ 2 = 1 - Real.cos ψ ^ 2 := by
      rw [← hspg]
      split_ifs
      · exact Real.sq_sqrt (by linarith)
      · rw [neg_sq]; exact Real.sq_sqrt (by linarith)
    split_ifs with hnear
    · have hne : p.uz ≠ 0 := by
        intro h0
        rw [h0] at hnear
        simp only [abs_zero] at hnear
        have : (0 : ℝ) < COSZERO := by norm_num [COSZERO]
        linarith
      have hsgn := realSign_sq hne
      simp only
      linear_combination (Real.cos ψ ^ 2 + sp ^ 2) * hst +
        (1 - ct ^ 2) * hsp + ct ^ 2 * hsgn
    · have huz1 : p.uz ^ 2 < 1 := by
        have h1 : |p.uz| ≤ COSZERO := not_lt.mp hnear
        have h2 : COSZERO < 1 := by norm_num [COSZERO]
        have h3 : |p.uz| < 1 := lt_of_le_of_lt h1 h2
        nlinarith [abs_nonneg p.uz, sq_abs p.uz]
      have htpos : 0 < Real.sqrt (1 - p.uz ^ 2) := Real.sqrt_pos.mpr (by linarith)
      have htne : Real.sqrt (1 - p.uz ^ 2) ≠ 0 := ne_of_gt htpos
      have ht : Real.sqrt (1 - p.uz ^ 2) ^ 2 = 1 - p.uz ^ 2 :=
        Real.sq_sqrt (by linarith)
      have hxy : p.ux ^ 2 + p.uy ^ 2 = Real.sqrt (1 - p.uz ^ 2) ^ 2 := by
        linear_combination hp - ht
      simp only
      set st := Real.sqrt (1 - ct ^ 2) with hstdef
      set cp := Real.cos ψ with hcpdef
      set t := Real.sqrt (1 - p.uz ^ 2) with htdef
      have e1 : st * (p.ux * p.uz * cp - p.uy * sp) / t + p.ux * ct =
          (st * (p.ux * p.uz * cp - p.uy * sp) + p.ux * ct * t) / t :=
        div_add' _ _ _ htne
      have e2 : st * (p.uy * p.uz * cp + p.ux * sp) / t + p.uy * ct =
          (st * (p.uy * p.uz * cp + p.ux * sp) + p.uy * ct * t) / t :=
        div_add' _ _ _ htne
      rw [e1, e2, div_pow, div_pow, div_add_div_same,
        div_add' _ _ _ (pow_ne_zero 2 htne), div_eq_iff (pow_ne_zero 2 htne)]
      linear_combination
        (st ^ 2 * (p.uz ^ 2 * cp ^ 2 + sp ^ 2) + 2 * st * ct * t * p.uz * cp +
          ct ^ 2 * t ^ 2) * hxy +
        (t ^ 2 * st ^ 2 * cp ^ 2 + t ^ 2 * ct ^ 2) * ht +
        t ^ 2 * st ^ 2 * hsp + t ^ 2 * hst
  refine ⟨spin_part, ?_, ?_, ?_⟩
  · intro p g u1 u2 hp hu
    obtain ⟨h1, h2⟩ := sampleCosTheta_mem g u1 hu
    exact spin_part p _ _ hp h1 h2
  · intro p n hn hp
    unfold unitDir at hp ⊢
    rw [transmitUpdate]
    have hcf : (calcFresnel n n |p.uz|).2 = |p.uz| := by
      rw [calcFresnel, if_pos rfl]
    simp only [hcf, div_self hn, mul_one, sq_abs]
    exact hp
  · intro p n1 n2 hn1 hn2 hne hp h1 h2 hlt
    have habs : |p.uz| ≤ 1 := by
      have : |p.uz| ≤ COSZERO := not_lt.mp h1
      have h3 : COSZERO ≤ 1 := by norm_num [COSZERO]
      linarith
    have hinner : Real.sqrt (1 - |p.uz| ^ 2) ^ 2 = 1 - |p.uz| ^ 2 :=
      Real.sq_sqrt (by nlinarith [abs_nonneg p.uz])
    have hsnonneg : 0 ≤ (n1 / n2) * Real.sqrt (1 - |p.uz| ^ 2) :=
      mul_nonneg (le_of_lt (div_pos hn1 hn2)) (Real.sqrt_nonneg _)
    have houter : Real.sqrt (1 - ((n1 / n2) * Real.sqrt (1 - |p.uz| ^ 2)) ^ 2) ^ 2 =
        1 - ((n1 / n2) * Real.sqrt (1 - |p.uz| ^ 2)) ^ 2 :=
      Real.sq_sqrt (by nlinarith)
    have hcf : (calcFresnel n1 n2 |p.uz|).2 =
        Real.sqrt (1 - ((n1 / n2) * Real.sqrt (1 - |p.uz| ^ 2)) ^ 2) := by
      simp only [calcFresnel, hne, abs_abs, h1, h2, if_false, ite_false,
        ge_iff_le, not_le.mpr hlt]
    unfold unitDir at hp ⊢
    rw [transmitUpdate]
    simp only [hcf]
    have hn2' : n2 ≠ 0 := ne_of_gt hn2
    rw [houter, sq_abs] at *
    field_simp
    linear_combination n1 ^ 2 * hp - n1 ^ 2 * hinner

/-- Unit photon pointing straight down, for the C7 witness. -/
noncomputable def c7w : Photon :=
  { x := 0, y := 0, z := 0, ux := 0, uy := 0, uz := 1, w := 1,
    dead := false, layer := 1, s := 0, s_rem := 0 }

/-- Witness for C7: a concrete spin preserves the unit norm. -/
theorem claim_C7_witness :
    unitDir c7w ∧ unitDir (spinWith c7w (1 / 2) 0) :=
  ⟨by norm_num [unitDir, c7w],
   claim_C7_unit_norm.1 c7w (1 / 2) 0 (by norm_num [unitDir, c7w])
     (by norm_num) (by norm_num)⟩

/-- Incidence cosine just inside the near-normal band:
`1 - 1e-13 > COSZERO`. -/
noncomputable def c7uz : ℝ := 1 - 1 / 10000000000000

/-- Unit photon with `uz = 1 - 1e-13` and the rest of the norm in `ux`. -/
noncomputable def c7p : Photon :=
  { x := 0, y := 0, z := 0, ux := Real.sqrt (1 - c7uz ^ 2), uy := 0,
    uz := c7uz, w := 1, dead := false, layer := 1, s := 0, s_rem := 0 }

/-- Counterexample to C7 as stated: the boundary transmission update does
*not* preserve the unit norm in `calcFresnel`'s near-normal branch — with
`n1 = 2, n2 = 1` and `uz = 1 - 1e-13` the transmitted cosine is returned
unchanged while `ux` is doubled, so the squared norm becomes
`1 + 3(1 - uz²) ≠ 1`. -/
theorem claim_C7_counterexample :
    unitDir c7p ∧ ¬unitDir (transmitUpdate c7p 2 1 c7p.uz) := by
  have huz2 : c7uz ^ 2 < 1 := by norm_num [c7uz]
  have hge : (0 : ℝ) ≤ 1 - c7uz ^ 2 := by linarith
  have hsq : Real.sqrt (1 - c7uz ^ 2) ^ 2 = 1 - c7uz ^ 2 := Real.sq_sqrt hge
  have hux : c7p.ux = Real.sqrt (1 - c7uz ^ 2) := rfl
  have huz : c7p.uz = c7uz := rfl
  have huy : c7p.uy = 0 := rfl
  constructor
  · show c7p.ux ^ 2 + c7p.uy ^ 2 + c7p.uz ^ 2 = 1
    rw [hux, huz, huy, hsq]; ring
  · intro hcon
    have habs : |c7uz| = c7uz := abs_of_pos (by norm_num [c7uz])
    have hgt : |c7uz| > COSZERO := by
      rw [habs]; norm_num [c7uz, COSZERO]
    have hcf : (calcFresnel 2 1 c7uz).2 = c7uz := by
      rw [calcFresnel, if_neg (by norm_num : ¬(2 : ℝ) = 1), if_pos hgt]
    simp only [unitDir, transmitUpdate, hux, huy, huz, hcf] at hcon
    nlinarith [hsq, hcon, huz2]

/-! ### Claim C1: per-photon weight conservation -/

/-- Adding `dw` at a single in-range cell raises the grid total by `dw`. -/
theorem total_update (s : Finset (ℕ × ℕ)) (A : ℤ → ℤ → ℝ) (ir iz : ℤ)
    (dw : ℝ) (q0 : ℕ × ℕ) (hq : q0 ∈ s) (h1 : (q0.1 : ℤ) = ir)
    (h2 : (q0.2 : ℤ) = iz) :
    (∑ q ∈ s, if (q.1 : ℤ) = ir ∧ (q.2 : ℤ) = iz
        then A q.1 q.2 + dw else A q.1 q.2) =
      (∑ q ∈ s, A q.1 q.2) + dw := by
  have hsplit : ∀ q ∈ s,
      (if (q.1 : ℤ) = ir ∧ (q.2 : ℤ) = iz then A q.1 q.2 + dw else A q.1 q.2) =
        A q.1 q.2 + (if (q.1 : ℤ) = ir ∧ (q.2 : ℤ) = iz then dw else 0) := by
    intro q _
    split_ifs <;> simp
  rw [Finset.sum_congr rfl hsplit, Finset.sum_add_distrib]
  congr 1
  rw [Finset.sum_eq_single q0]
  · rw [if_pos ⟨h1, h2⟩]
  · intro q hqs hne
    rw [if_neg]
    rintro ⟨e1, e2⟩
    apply hne
    have hq1 : q.1 = q0.1 := by exact_mod_cast e1.trans h1.symm
    have hq2 : q.2 = q0.2 := by exact_mod_cast e2.trans h2.symm
    exact Prod.ext hq1 hq2
  · intro hab
    exact absurd hq hab

/-- The clamped bin of a nonnegative index lies in `[0, n-1]`. -/
theorem binClamp_bounds (i : ℤ) (n : ℕ) (hn : 0 < n) (hi : 0 ≤ i) :
    0 ≤ binClamp i n ∧ binClamp i n ≤ (n : ℤ) - 1 := by
  unfold binClamp
  split_ifs with h <;> omega

/-- `rtrunc` of a nonnegative real is nonnegative. -/
theorem rtrunc_nonneg {x : ℝ} (h : 0 ≤ x) : 0 ≤ rtrunc x := by
  rw [rtrunc_of_nonneg h]
  exact Int.floor_nonneg.mpr h

/-- The `dropCore` update conserves weight plus deposits. -/
theorem dropCore_budget (m : MCModel) (p : Photon) (mua mus : ℝ)
    (hnr : 0 < m.nr) (hnz : 0 < m.nz) (hdr : 0 < m.dr) (hdz : 0 < m.dz)
    (hz : 0 ≤ p.z) :
    budget (dropCore m p mua mus).1 (dropCore m p mua mus).2 = budget m p := by
  have hir := binClamp_bounds (rtrunc (Real.sqrt (p.x ^ 2 + p.y ^ 2) / m.dr))
    m.nr hnr (rtrunc_nonneg (div_nonneg (Real.sqrt_nonneg _) hdr.le))
  have hiz := binClamp_bounds (rtrunc (p.z / m.dz)) m.nz hnz
    (rtrunc_nonneg (div_nonneg hz hdz.le))
  rw [← show dropIr m p =
      binClamp (rtrunc (Real.sqrt (p.x ^ 2 + p.y ^ 2) / m.dr)) m.nr from rfl]
    at hir
  rw [← show dropIz m p = binClamp (rtrunc (p.z / m.dz)) m.nz from rfl] at hiz
  unfold budget dropCore totalArz totalRdra totalTtra
  simp only
  rw [total_update (Finset.range m.nr ×ˢ Finset.range m.nz) m.A_rz
    (dropIr m p) (dropIz m p) (p.w * mua / (mua + mus))
    ((dropIr m p).toNat, (dropIz m p).toNat)
    (Finset.mem_product.mpr ⟨Finset.mem_range.mpr (by omega),
      Finset.mem_range.mpr (by omega)⟩)
    (Int.toNat_of_nonneg hir.1) (Int.toNat_of_nonneg hiz.1)]
  ring

/-- The `recordReduce` update conserves weight plus deposits, for any
reflectance. -/
theorem recordReduce_budget (m : MCModel) (p : Photon) (r : ℝ)
    (hnr : 0 < m.nr) (hna : 0 < m.na) (hdr : 0 < m.dr) (hda : 0 < m.da) :
    budget (recordReduce m p r).1 (recordReduce m p r).2 = budget m p := by
  have hir := binClamp_bounds (rtrunc (Real.sqrt (p.x ^ 2 + p.y ^ 2) / m.dr))
    m.nr hnr (rtrunc_nonneg (div_nonneg (Real.sqrt_nonneg _) hdr.le))
  have hia := binClamp_bounds (rtrunc (Real.arccos |p.uz| / m.da)) m.na hna
    (rtrunc_nonneg (div_nonneg (Real.arccos_nonneg _) hda.le))
  rw [← show rrIr m p =
      binClamp (rtrunc (Real.sqrt (p.x ^ 2 + p.y ^ 2) / m.dr)) m.nr from rfl]
    at hir
  rw [← show rrIa m p =
      binClamp (rtrunc (Real.arccos |p.uz| / m.da)) m.na from rfl] at hia
  unfold recordReduce
  split_ifs with hl
  · unfold budget totalArz totalRdra totalTtra
    simp only
    rw [total_update (Finset.range m.nr ×ˢ Finset.range m.na) m.Rd_ra
      (rrIr m p) (rrIa m p) (p.w * (1 - r))
      ((rrIr m p).toNat, (rrIa m p).toNat)
      (Finset.mem_product.mpr ⟨Finset.mem_range.mpr (by omega),
        Finset.mem_range.mpr (by omega)⟩)
      (Int.toNat_of_nonneg hir.1) (Int.toNat_of_nonneg hia.1)]
    ring
  · unfold budget totalArz totalRdra totalTtra
    simp only
    rw [total_update (Finset.range m.nr ×ˢ Finset.range m.na) m.Tt_ra
      (rrIr m p) (rrIa m p) (p.w * (1 - r))
      ((rrIr m p).toNat, (rrIa m p).toNat)
      (Finset.mem_product.mpr ⟨Finset.mem_range.mpr (by omega),
        Finset.mem_range.mpr (by omega)⟩)
      (Int.toNat_of_nonneg hir.1) (Int.toNat_of_nonneg hia.1)]
    ring

/-- Mean of the post-roulette live weight over the uniform draw. -/
theorem roulette_mean (p : Photon) (h : p.dead = false) :
    (∫ u in (0 : ℝ)..1, aliveWeight (roulette p u)) = p.w := by
  by_cases hw : p.w = 0
  · have hzero : ∀ u : ℝ, aliveWeight (roulette p u) = 0 := by
      intro u
      simp [roulette, aliveWeight, hw]
    simp only [hzero]
    rw [intervalIntegral.integral_zero, hw]
  · have hfun : ∀ u : ℝ,
        aliveWeight (roulette p u) =
          Set.indicator (Set.Iio M) (fun _ => p.w / M) u := by
      intro u
      by_cases hu : u < M
      · rw [Set.indicator_of_mem (Set.mem_Iio.mpr hu)]
        simp [roulette, aliveWeight, hw, hu, h]
      · rw [Set.indicator_of_not_mem (by simpa using hu)]
        simp [roulette, aliveWeight, hw, hu]
    rw [intervalIntegral.integral_congr (g :=
      fun u => Set.indicator (Set.Iio M) (fun _ => p.w / M) u)
      (fun u _ => hfun u)]
    rw [intervalIntegral.integral_of_le (by norm_num : (0 : ℝ) ≤ 1)]
    rw [MeasureTheory.setIntegral_indicator measurableSet_Iio]
    have hset : Set.Ioc (0 : ℝ) 1 ∩ Set.Iio M = Set.Ioo 0 M := by
      ext x
      simp only [Set.mem_inter_iff, Set.mem_Ioc, Set.mem_Iio, Set.mem_Ioo, M]
      constructor
      · rintro ⟨⟨h0, _⟩, hm⟩; exact ⟨h0, hm⟩
      · rintro ⟨h0, hm⟩; exact ⟨⟨h0, by linarith⟩, hm⟩
    rw [hset, MeasureTheory.setIntegral_const, Real.volume_Ioo]
    rw [show ENNReal.toReal (ENNReal.ofReal (M - 0)) = M by
      rw [ENNReal.toReal_ofReal (by norm_num [M])]; ring]
    rw [smul_eq_mul]
    have hM : (M : ℝ) ≠ 0 := by norm_num [M]
    field_simp

/-- Claim C1: the quantity `w + (total deposited in A_rz, Rd_ra, Tt_ra)`
is left exactly unchanged by `hop`, `spin`, `drop`, `recordReduce` and
the boundary resolution `newLayerCheck`; the only operation that changes
it is roulette, which preserves it in expectation over its uniform draw
(mean live weight `M·(w/M) + (1-M)·0 = w`). -/
theorem claim_C1_weight_conservation :
    (∀ (m : MCModel) (p : Photon), budget m (hop p) = budget m p) ∧
    (∀ (m : MCModel) (p : Photon) (g u1 u2 : ℝ),
      budget m (spin p g u1 u2) = budget m p) ∧
    (∀ (m : MCModel) (p : Photon) (u : ℝ), 0 < m.nr → 0 < m.nz →
      0 < m.dr → 0 < m.dz → 0 ≤ p.z →
      budget (drop m p u).1 (drop m p u).2 = budget m p) ∧
    (∀ (m : MCModel) (p : Photon) (r : ℝ), 0 < m.nr → 0 < m.na →
      0 < m.dr → 0 < m.da →
      budget (recordReduce m p r).1 (recordReduce m p r).2 = budget m p) ∧
    (∀ (m : MCModel) (p : Photon) (stream : List ℝ), 0 < m.nr → 0 < m.na →
      0 < m.dr → 0 < m.da →
      budget (newLayerCheck m p stream).1 (newLayerCheck m p stream).2.1 =
        budget m p) ∧
    (∀ p : Photon, p.dead = false →
      (∫ u in (0 : ℝ)..1, aliveWeight (roulette p u)) = p.w) := by
  refine ⟨fun m p => rfl, ?_, ?_, ?_, ?_, roulette_mean⟩
  · intro m p g u1 u2
    unfold spin spinWith
    split_ifs <;> rfl
  · intro m p u hnr hnz hdr hdz hz
    have hb : (inBone m p u).1.w = p.w ∧ (inBone m p u).1.z = p.z := by
      constructor <;> (simp only [inBone]; split_ifs <;> rfl)
    simp only [drop]
    split_ifs with hmus hin
    · rw [show budget m p = budget m (inBone m p u).1 from by
        unfold budget; rw [hb.1]]
      exact dropCore_budget m _ _ _ hnr hnz hdr hdz (by rw [hb.2]; exact hz)
    · rw [show budget m p = budget m (inBone m p u).1 from by
        unfold budget; rw [hb.1]]
      exact dropCore_budget m _ _ _ hnr hnz hdr hdz (by rw [hb.2]; exact hz)
    · exact dropCore_budget m p _ _ hnr hnz hdr hdz hz
  · intro m p r hnr hna hdr hda
    exact recordReduce_budget m p r hnr hna hdr hda
  · intro m p stream hnr hna hdr hda
    simp only [newLayerCheck, prFlag, if_neg (by norm_num : ¬(0 : ℕ) = 1)]
    split_ifs <;>
      first
        | rfl
        | exact recordReduce_budget m _ 0 hnr hna hdr hda

/-- Witness for C1: conservation at a concrete drop on the launched
photon of the single-layer stack. -/
theorem claim_C1_witness :
    budget (drop exModel1 (mkPhoton exModel1) 0).1
      (drop exModel1 (mkPhoton exModel1) 0).2 =
      budget exModel1 (mkPhoton exModel1) :=
  claim_C1_weight_conservation.2.2.1 exModel1 (mkPhoton exModel1) 0
    (by rw [show exModel1.nr = 250 from rfl]; norm_num)
    (by rw [show exModel1.nz = 650 from rfl]; norm_num)
    (by rw [show exModel1.dr = 1 / 50 from rfl]; norm_num)
    (by rw [show exModel1.dz = 1 / 50 from rfl]; norm_num)
    (by simp [mkPhoton, exModel1, mkModel, MCModel.layerAt, List.getD, exTissue])

/-! ### Claim C8: double normalization -/

/-- Only `scaleRT` touches the 2D exit grids, dividing each in-range cell
once by its own factor. -/
theorem cass_Rd_ra (X : MCModel) (i j : ℤ) (h0 : 0 ≤ i)
    (h1 : i < (X.nr : ℤ)) (h2 : 0 ≤ j) (h3 : j < (X.na : ℤ)) :
    (computeAndScaleArraySums X).Rd_ra i j = X.Rd_ra i j / scaleRdTt X i j := by
  simp only [computeAndScaleArraySums, Fluence, scaleA, sumA, scaleRT, sumRT,
    scaleRdTt, dArea, dSolidAngle]
  rw [if_pos ⟨h0, h1, h2, h3⟩]

/-- `Tt_ra` analogue of `cass_Rd_ra`. -/
theorem cass_Tt_ra (X : MCModel) (i j : ℤ) (h0 : 0 ≤ i)
    (h1 : i < (X.nr : ℤ)) (h2 : 0 ≤ j) (h3 : j < (X.na : ℤ)) :
    (computeAndScaleArraySums X).Tt_ra i j = X.Tt_ra i j / scaleRdTt X i j := by
  simp only [computeAndScaleArraySums, Fluence, scaleA, sumA, scaleRT, sumRT,
    scaleRdTt, dArea, dSolidAngle]
  rw [if_pos ⟨h0, h1, h2, h3⟩]

/-- Only `scaleA` touches `A_rz`, dividing each in-range cell once. -/
theorem cass_A_rz (X : MCModel) (i j : ℤ) (h0 : 0 ≤ i)
    (h1 : i < (X.nr : ℤ)) (h2 : 0 ≤ j) (h3 : j < (X.nz : ℤ)) :
    (computeAndScaleArraySums X).A_rz i j = X.A_rz i j / scaleArz X i := by
  simp only [computeAndScaleArraySums, Fluence, scaleA, sumA, scaleRT, sumRT,
    scaleArz, dArea]
  rw [if_pos ⟨h0, h1, h2, h3⟩]

/-- One normalization pass keeps the grid geometry and photon count. -/
theorem cass_consts (X : MCModel) :
    (computeAndScaleArraySums X).nr = X.nr ∧
    (computeAndScaleArraySums X).na = X.na ∧
    (computeAndScaleArraySums X).nz = X.nz ∧
    (computeAndScaleArraySums X).dr = X.dr ∧
    (computeAndScaleArraySums X).dz = X.dz ∧
    (computeAndScaleArraySums X).da = X.da ∧
    (computeAndScaleArraySums X).numberOfPhotons = X.numberOfPhotons := by
  refine ⟨?_, ?_, ?_, ?_, ?_, ?_, ?_⟩ <;>
    simp only [computeAndScaleArraySums, Fluence, scaleA, sumA, scaleRT, sumRT]

/-- The per-cell exit-grid factor is unchanged by a normalization pass. -/
theorem scaleRdTt_cass (X : MCModel) (i j : ℤ) :
    scaleRdTt (computeAndScaleArraySums X) i j = scaleRdTt X i j := by
  obtain ⟨-, -, -, hdr, -, hda, hN⟩ := cass_consts X
  simp only [scaleRdTt, dArea, dSolidAngle]
  rw [hdr, hda, hN]

/-- The per-cell absorption factor is unchanged by a normalization pass. -/
theorem scaleArz_cass (X : MCModel) (i : ℤ) :
    scaleArz (computeAndScaleArraySums X) i = scaleArz X i := by
  obtain ⟨-, -, -, hdr, hdz, -, hN⟩ := cass_consts X
  simp only [scaleArz, dArea]
  rw [hdr, hdz, hN]

/-- The scalar `Rd` produced by one normalization pass: the full 2D sum
divided by the photon count. -/
theorem cass_Rd (X : MCModel) :
    (computeAndScaleArraySums X).Rd =
      (∑ ir ∈ Finset.range X.nr, ∑ ia ∈ Finset.range X.na,
        X.Rd_ra ir ia) / (X.numberOfPhotons : ℝ) := by
  show (scaleRT (sumRT X)).Rd = _
  simp only [scaleRT, sumRT]
  congr 1
  refine Finset.sum_congr rfl ?_
  intro ir hir
  rw [if_pos (Finset.mem_range.mp hir)]

/-- Claim C8 (amended): applying `computeAndScaleArraySums` a second time
divides every in-range cell of the 2D grids `Rd_ra`, `Tt_ra`, `A_rz` once
more by that cell's own normalization factor (the factor-squared law of
the claim).  For the 1D projections and the scalars the claim as stated
fails — they are recomputed by summation from the already-scaled 2D grids
— see the counterexample. -/
theorem claim_C8_double_normalization (m : MCModel) :
    (∀ i j : ℤ, 0 ≤ i → i < (m.nr : ℤ) → 0 ≤ j → j < (m.na : ℤ) →
      (computeAndScaleArraySums (computeAndScaleArraySums m)).Rd_ra i j =
        (computeAndScaleArraySums m).Rd_ra i j / scaleRdTt m i j ∧
      (computeAndScaleArraySums (computeAndScaleArraySums m)).Tt_ra i j =
        (computeAndScaleArraySums m).Tt_ra i j / scaleRdTt m i j) ∧
    (∀ i j : ℤ, 0 ≤ i → i < (m.nr : ℤ) → 0 ≤ j → j < (m.nz : ℤ) →
      (computeAndScaleArraySums (computeAndScaleArraySums m)).A_rz i j =
        (computeAndScaleArraySums m).A_rz i j / scaleArz m i) := by
  obtain ⟨hnr, hna, hnz, -, -, -, -⟩ := cass_consts m
  constructor
  · intro i j h0 h1 h2 h3
    have h1a : i < ((computeAndScaleArraySums m).nr : ℤ) := by rw [hnr]; exact h1
    have h3a : j < ((computeAndScaleArraySums m).na : ℤ) := by rw [hna]; exact h3
    rw [cass_Rd_ra (computeAndScaleArraySums m) i j h0 h1a h2 h3a,
      cass_Tt_ra (computeAndScaleArraySums m) i j h0 h1a h2 h3a,
      scaleRdTt_cass]
    exact ⟨rfl, rfl⟩
  · intro i j h0 h1 h2 h3
    have h1a : i < ((computeAndScaleArraySums m).nr : ℤ) := by rw [hnr]; exact h1
    have h3a : j < ((computeAndScaleArraySums m).nz : ℤ) := by rw [hnz]; exact h3
    rw [cass_A_rz (computeAndScaleArraySums m) i j h0 h1a h2 h3a, scaleArz_cass]

/-- Witness for C8 at the corner cell of the example stack. -/
theorem claim_C8_witness :
    (computeAndScaleArraySums (computeAndScaleArraySums exModel1)).Rd_ra 0 0 =
      (computeAndScaleArraySums exModel1).Rd_ra 0 0 /
        scaleRdTt exModel1 0 0 :=
  ((claim_C8_double_normalization exModel1).1 0 0 (by norm_num)
    (by rw [show exModel1.nr = 250 from rfl]; norm_num) (by norm_num)
    (by rw [show exModel1.na = 30 from rfl]; norm_num)).1

/-- A double sum of a function supported at the origin cell collapses. -/
theorem double_sum_point (nr na : ℕ) (hnr : 0 < nr) (hna : 0 < na)
    (g : ℤ → ℤ → ℝ)
    (hg : ∀ i ∈ Finset.range nr, ∀ j ∈ Finset.range na,
      ¬(i = 0 ∧ j = 0) → g i j = 0) :
    (∑ ir ∈ Finset.range nr, ∑ ia ∈ Finset.range na, g ir ia) = g 0 0 := by
  rw [Finset.sum_eq_single 0 ?h1 ?h2]
  · rw [Finset.sum_eq_single 0 ?h3 ?h4]
    · norm_num
    case h3 =>
      intro b hb hbne
      exact hg 0 (Finset.mem_range.mpr hnr) b hb (fun he => hbne he.2)
    case h4 =>
      intro h
      exact absurd (Finset.mem_range.mpr hna) h
  case h1 =>
    intro b hb hbne
    exact Finset.sum_eq_zero fun ia hia => hg b hb ia hia (fun he => hbne he.1)
  case h2 =>
    intro h
    exact absurd (Finset.mem_range.mpr hnr) h

/-- Normalized-once model state: one raw unit of weight in `Rd_ra[0,0]`
of the example stack, with one photon launched. -/
noncomputable def c8m : MCModel :=
  { mkModel [exAir, exTissue, exAir] 1 with
      Rd_ra := fun i j => if i = 0 ∧ j = 0 then 1 else 0,
      numberOfPhotons := 1 }

/-- Counterexample to C8 as stated: the *scalar* `Rd` of the second
normalization pass is not the single-pass `Rd` divided once more by its
own factor (the photon count): the second pass re-sums the already-scaled
2D grid, so the cell factor `scaleRdTt` (here `< 1`) contaminates the
scalar. -/
theorem claim_C8_counterexample :
    (computeAndScaleArraySums c8m).Rd = 1 ∧
    (computeAndScaleArraySums (computeAndScaleArraySums c8m)).Rd ≠
      (computeAndScaleArraySums c8m).Rd / (c8m.numberOfPhotons : ℝ) := by
  have hN : (c8m.numberOfPhotons : ℝ) = 1 := by
    rw [show c8m.numberOfPhotons = 1 from rfl]; norm_num
  have hnr : c8m.nr = 250 := rfl
  have hna : c8m.na = 30 := rfl
  have hnr' : (0 : ℕ) < c8m.nr := by rw [hnr]; norm_num
  have hna' : (0 : ℕ) < c8m.na := by rw [hna]; norm_num
  have hRdra : ∀ i j : ℤ, c8m.Rd_ra i j = if i = 0 ∧ j = 0 then 1 else 0 :=
    fun i j => rfl
  have hsingle : (computeAndScaleArraySums c8m).Rd = 1 := by
    rw [cass_Rd c8m, hN, div_one]
    rw [double_sum_point c8m.nr c8m.na hnr' hna' c8m.Rd_ra ?hg0]
    case hg0 =>
      intro i _ j _ hne
      rw [hRdra, if_neg]
      rintro ⟨e1, e2⟩
      exact hne ⟨by exact_mod_cast e1, by exact_mod_cast e2⟩
    rw [hRdra 0 0, if_pos ⟨rfl, rfl⟩]
  have hcell : (computeAndScaleArraySums c8m).Rd_ra 0 0 =
      1 / scaleRdTt c8m 0 0 := by
    rw [cass_Rd_ra c8m 0 0 le_rfl (by rw [hnr]; norm_num) le_rfl
      (by rw [hna]; norm_num)]
    rw [hRdra 0 0, if_pos ⟨rfl, rfl⟩]
  obtain ⟨c_nr, c_na, -, -, -, -, c_N⟩ := cass_consts c8m
  have hdouble : (computeAndScaleArraySums (computeAndScaleArraySums c8m)).Rd =
      1 / scaleRdTt c8m 0 0 := by
    rw [cass_Rd (computeAndScaleArraySums c8m), c_nr, c_na, c_N, hN, div_one]
    rw [double_sum_point c8m.nr c8m.na hnr' hna'
      (computeAndScaleArraySums c8m).Rd_ra ?hg1]
    case hg1 =>
      intro i hi j hj hne
      rw [cass_Rd_ra c8m i j (Int.natCast_nonneg i)
        (by exact_mod_cast Finset.mem_range.mp hi) (Int.natCast_nonneg j)
        (by exact_mod_cast Finset.mem_range.mp hj)]
      rw [hRdra, if_neg, zero_div]
      rintro ⟨e1, e2⟩
      exact hne ⟨by exact_mod_cast e1, by exact_mod_cast e2⟩
    exact hcell
  have hang1 : (((0 : ℤ) : ℝ) + 0.5) * c8m.da = Real.pi / 120 := by
    rw [show c8m.da = 0.5 * Real.pi / 30 from rfl]
    push_cast
    ring
  have hang2 : (0.5 : ℝ) * c8m.da = Real.pi / 120 := by
    rw [show c8m.da = 0.5 * Real.pi / 30 from rfl]
    ring
  have hPexpr : scaleRdTt c8m 0 0 =
      2 * Real.pi * 0.5 * (1 / 50) ^ 2 * Real.cos (Real.pi / 120) *
        (4 * Real.pi * Real.sin (Real.pi / 120) * Real.sin (Real.pi / 120)) := by
    rw [scaleRdTt, dArea, dSolidAngle, hang1, hang2, hN,
      show c8m.dr = 1 / 50 from rfl]
    push_cast
    ring
  have hθpos : (0 : ℝ) < Real.pi / 120 := by positivity
  have hθltπ : Real.pi / 120 < Real.pi := by linarith [Real.pi_pos]
  have hs0 : 0 < Real.sin (Real.pi / 120) :=
    Real.sin_pos_of_pos_of_lt_pi hθpos hθltπ
  have hs1 : Real.sin (Real.pi / 120) ≤ 1 := Real.sin_le_one _
  have hc0 : 0 < Real.cos (Real.pi / 120) :=
    Real.cos_pos_of_mem_Ioo ⟨by linarith [Real.pi_pos], by linarith [Real.pi_pos]⟩
  have hc1 : Real.cos (Real.pi / 120) ≤ 1 := Real.cos_le_one _
  have hπ4 : Real.pi ≤ 4 := Real.pi_le_four
  have hπ0 : 0 < Real.pi := Real.pi_pos
  have hP0 : 0 < scaleRdTt c8m 0 0 := by
    rw [hPexpr]
    have h1 : (0 : ℝ) < 2 * Real.pi * 0.5 * (1 / 50) ^ 2 := by positivity
    have h2 : (0 : ℝ) < 4 * Real.pi * Real.sin (Real.pi / 120) *
        Real.sin (Real.pi / 120) :=
      mul_pos (mul_pos (by positivity) hs0) hs0
    exact mul_pos (mul_pos h1 hc0) h2
  have hP1 : scaleRdTt c8m 0 0 < 1 := by
    have hcs : Real.cos (Real.pi / 120) *
        (Real.sin (Real.pi / 120) * Real.sin (Real.pi / 120)) ≤ 1 := by
      nlinarith [hs0, hs1, hc0, hc1, mul_pos hs0 hs0]
    have hcs0 : 0 ≤ Real.cos (Real.pi / 120) *
        (Real.sin (Real.pi / 120) * Real.sin (Real.pi / 120)) :=
      mul_nonneg hc0.le (mul_nonneg hs0.le hs0.le)
    have hπ2 : Real.pi * Real.pi ≤ 16 := by nlinarith [hπ0, hπ4]
    have hπ20 : (0 : ℝ) ≤ Real.pi * Real.pi := by positivity
    rw [hPexpr, show 2 * Real.pi * 0.5 * (1 / 50) ^ 2 * Real.cos (Real.pi / 120) *
      (4 * Real.pi * Real.sin (Real.pi / 120) * Real.sin (Real.pi / 120)) =
        Real.pi * Real.pi *
          (Real.cos (Real.pi / 120) *
            (Real.sin (Real.pi / 120) * Real.sin (Real.pi / 120))) *
          (4 / 2500) from by ring]
    nlinarith [hcs, hcs0, hπ2, hπ20]
  refine ⟨hsingle, ?_⟩
  rw [hdouble, hsingle, hN, div_one]
  exact ne_of_gt ((one_lt_div hP0).mpr hP1)

end MCML
